import Mathlib

/-!
# Authorization session (`authorization_session_impl.cpp`)

A shallow embedding of `AuthorizationSessionImpl`: the resource search list, the
authorization decision, the refresh of the cached users, authentication and logout, the
default privileges, the cursor session check and the checks across sessions, on roles,
on namespace elements and on listing collections, followed by the properties proved
about them.
-/

namespace mongo

/-! ## Data model -/

/-- Modelled from the spec: `StringData::startsWith` (string_data.h) is not among the
sources; a string starts with a prefix when the prefix's characters open it. -/
def startsWith (s pre : String) : Bool :=
  pre.data.isPrefixOf s.data

/-- Modelled from the spec: the `ActionType` enumeration (action_type.h) is not among the
sources. It is a closed enumeration of action kinds; listed are the kinds that
`authorization_session_impl.cpp` names, and `find`, `insert`, `update`, `remove`. -/
inductive ActionType where
  | addShard
  | createRole
  | createUser
  | find
  | getCmdLineOpts
  | getParameter
  | grantRole
  | impersonate
  | insert
  | listCollections
  | remove
  | replSetConfigure
  | replSetGetStatus
  | serverStatus
  | shutdown
  | update
  | useUUID
deriving DecidableEq, Repr

/-- Modelled from the spec: `ActionSet` (action_set.h) is not among the sources. It is a
set over the enumeration of action kinds, with union, difference, containment and an
emptiness test. -/
abbrev ActionSet := Finset ActionType

namespace ActionSet

/-- `ActionSet::addAction`. -/
def addAction (s : ActionSet) (a : ActionType) : ActionSet := insert a s

/-- `ActionSet::addAllActionsFromSet`. -/
def addAllActionsFromSet (s other : ActionSet) : ActionSet := s ∪ other

/-- `ActionSet::removeAllActionsFromSet`. -/
def removeAllActionsFromSet (s other : ActionSet) : ActionSet := s \ other

/-- `ActionSet::contains`. -/
def contains (s : ActionSet) (a : ActionType) : Bool := decide (a ∈ s)

/-- `ActionSet::empty`. -/
def empty (s : ActionSet) : Bool := decide (s = ∅)

end ActionSet

/-- Modelled from the spec: `NamespaceString` (namespace_string.h) is not among the
sources. A namespace is a database name and a collection name. -/
structure NamespaceString where
  db : String
  coll : String
deriving DecidableEq, Repr

namespace NamespaceString

/-- `NamespaceString::isSystem`: the collection name is prefixed with `system.`. -/
def isSystem (ns : NamespaceString) : Bool := startsWith ns.coll "system."

/-- `NamespaceString::isLocal`. -/
def isLocal (ns : NamespaceString) : Bool := ns.db == "local"

/-- Modelled from the spec: `NamespaceString::isNormalCollection` is not among the
sources. It follows the comment on `buildResourceSearchList`: collections are matched
by their database's resource, except those prefixed with `system.` and those of the
`local` database whose name is prefixed with `replset.`. -/
def isNormalCollection (ns : NamespaceString) : Bool :=
  !ns.isSystem && !(ns.isLocal && startsWith ns.coll "replset.")

end NamespaceString

/-- Modelled from the spec: `ResourcePattern` (resource_pattern.h) is not among the
sources. It is a tagged variant of six kinds with structural equality; the constructors
carry the names of its factory functions. -/
inductive ResourcePattern where
  | forAnyResource
  | forAnyNormalResource
  | forClusterResource
  | forDatabaseName (db : String)
  | forCollectionName (coll : String)
  | forExactNamespace (ns : NamespaceString)
deriving DecidableEq, Repr

namespace ResourcePattern

/-- `ResourcePattern::isExactNamespacePattern`. -/
def isExactNamespacePattern : ResourcePattern → Bool
  | forExactNamespace _ => true
  | _ => false

/-- `ResourcePattern::isDatabasePattern`. -/
def isDatabasePattern : ResourcePattern → Bool
  | forDatabaseName _ => true
  | _ => false

/-- `ResourcePattern::isCollectionPattern`. -/
def isCollectionPattern : ResourcePattern → Bool
  | forCollectionName _ => true
  | _ => false

/-- `ResourcePattern::ns`: the namespace a pattern carries; a database pattern carries
only a database name, a collection pattern only a collection name. -/
def ns : ResourcePattern → NamespaceString
  | forDatabaseName db => ⟨db, ""⟩
  | forCollectionName coll => ⟨"", coll⟩
  | forExactNamespace n => n
  | _ => ⟨"", ""⟩

end ResourcePattern

/-- Modelled from the spec: `Privilege` (privilege.h) is not among the sources. It is a
pair of a resource pattern and an action set. -/
structure Privilege where
  getResourcePattern : ResourcePattern
  getActions : ActionSet
deriving DecidableEq

/-- `PrivilegeVector`. -/
abbrev PrivilegeVector := List Privilege

namespace Privilege

/-- The constructor `Privilege(resource, action)` for a single action. -/
def ofAction (resource : ResourcePattern) (action : ActionType) : Privilege :=
  ⟨resource, ActionSet.addAction ∅ action⟩

/-- Modelled from the spec: `Privilege::addPrivilegeToPrivilegeVector` is not among the
sources. Privileges compose by unioning action sets when resource patterns match;
otherwise the privilege is appended. -/
def addPrivilegeToPrivilegeVector : PrivilegeVector → Privilege → PrivilegeVector
  | [], p => [p]
  | q :: rest, p =>
    if q.getResourcePattern = p.getResourcePattern then
      ⟨q.getResourcePattern, q.getActions.addAllActionsFromSet p.getActions⟩ :: rest
    else q :: addPrivilegeToPrivilegeVector rest p

end Privilege

/-! ## Resource search list -/

/-- `resourceSearchListCapacity`. -/
def resourceSearchListCapacity : Nat := 5

/-- `buildResourceSearchList`: the entries written to `resourceSearchList`, in the order
of the writes `resourceSearchList[size++] = ...`; the returned size is the length. -/
def buildResourceSearchList (target : ResourcePattern) : List ResourcePattern :=
  let l0 : List ResourcePattern := [ResourcePattern.forAnyResource]
  let l1 : List ResourcePattern :=
    if target.isExactNamespacePattern then
      let l2 : List ResourcePattern :=
        if target.ns.isNormalCollection then
          let l3 : List ResourcePattern :=
            if target.ns.db != "local" && target.ns.db != "config" then
              l0 ++ [ResourcePattern.forAnyNormalResource]
            else l0
          l3 ++ [ResourcePattern.forDatabaseName target.ns.db]
        else l0
      l2 ++ [ResourcePattern.forCollectionName target.ns.coll]
    else if target.isDatabasePattern then
      if target.ns.db != "local" && target.ns.db != "config" then
        l0 ++ [ResourcePattern.forAnyNormalResource]
      else l0
    else l0
  l1 ++ [target]

/-! ## Users and the session -/

/-- Modelled from the spec: `UserName` (user_name.h) is not among the sources. A user name
is a name and the database the user belongs to. -/
structure UserName where
  getUser : String
  getDB : String
deriving DecidableEq, Repr

/-- Modelled from the spec: `RoleName` (role_name.h) is not among the sources. -/
structure RoleName where
  getRole : String
  getDB : String
deriving DecidableEq, Repr

/-- Modelled from the spec: `ErrorCodes` (error_codes.h) is not among the sources. Listed
are the codes of failed statuses that the session names; `Other` stands for every other
code. `ErrorCodes::OK` is the successful side of `Status` and `StatusWith`. -/
inductive ErrorCodes where
  | UserNotFound
  | UnsupportedFormat
  | Unauthorized
  | InvalidNamespace
  | AuthenticationFailed
  | Other (code : Nat)
deriving DecidableEq, Repr

/-- `Status`: `Status::OK()`, or a failed status with its code. -/
inductive Status where
  | OK
  | error (code : ErrorCodes)
deriving DecidableEq, Repr

/-- `Status::isOK`. -/
def Status.isOK : Status → Bool
  | Status.OK => true
  | Status.error _ => false

/-- `StatusWith<T>`: a value (its status is OK), or a failed status with its code. -/
inductive StatusWith (α : Type) where
  | value (getValue : α)
  | error (code : ErrorCodes)
deriving DecidableEq

/-- The ways a call of `User::validateRestrictions` can end: with a status, or by raising
an exception. -/
inductive RestrictionResult where
  | returned (status : Status)
  | raised
deriving DecidableEq

/-- Modelled from the spec: `User` (user.h) is not among the sources. An identity has a
name, an id, a validity flag, a map from resource patterns to granted action sets (kept
as an association list), direct and indirect roles, and a restriction validation that
may fail or raise. -/
structure User where
  getName : UserName
  getID : Nat
  isValid : Bool
  getPrivileges : List (ResourcePattern × ActionSet)
  getRoles : List RoleName
  getIndirectRoles : List RoleName
  validateRestrictions : RestrictionResult
deriving DecidableEq

namespace User

/-- `User::getActionsForResource`: the action set the map holds for the resource, the
empty set when it holds none. -/
def getActionsForResource (u : User) (resource : ResourcePattern) : ActionSet :=
  match u.getPrivileges.lookup resource with
  | some actions => actions
  | none => ∅

/-- `User::hasRole`. -/
def hasRole (u : User) (roleName : RoleName) : Bool :=
  u.getRoles.contains roleName

end User

/-- Modelled from the spec: `UserSet` (user_set.h) is not among the sources. It is the
ordered sequence of the authenticated users. An iterator is a position in the sequence;
`end()` is the length. -/
abbrev UserSet := List User

namespace UserSet

/-- `UserSet::removeAt`: removes the entry at the position. Iterators to the other
entries keep designating them, so the successor of the removed entry is found at the
position of the removed one. -/
def removeAt (users : UserSet) (it : Nat) : UserSet := users.eraseIdx it

/-- `UserSet::replaceAt`: overwrites the entry at the position. -/
def replaceAt (users : UserSet) (it : Nat) (replacement : User) : UserSet :=
  users.set it replacement

end UserSet

/-- Modelled from the spec: `AuthzSessionExternalState` (authz_session_external_state.h)
is not among the sources. The session reads three answers from it. -/
structure AuthzSessionExternalState where
  shouldIgnoreAuthChecks : Bool
  shouldAllowLocalhost : Bool
  serverIsArbiter : Bool
deriving DecidableEq

/-- Modelled from the spec: `AuthorizationManager` (authorization_manager.h) is not among
the sources. The directory answers whether authorization is enabled and resolves users;
`σ` is the directory's own state, which a call may change. -/
structure AuthorizationManager (σ : Type) where
  isAuthEnabled : Bool
  acquireUser : σ → UserName → StatusWith User × σ
  acquireUserForSessionRefresh : σ → UserName → Nat → StatusWith User × σ

/-- The members of `AuthorizationSessionImpl`. -/
structure AuthorizationSessionImpl where
  _externalState : AuthzSessionExternalState
  _authenticatedUsers : UserSet
  _authenticatedRoleNames : List RoleName
  _impersonatedUserNames : List UserName
  _impersonatedRoleNames : List RoleName
  _impersonationFlag : Bool
deriving DecidableEq

/-- `ADMIN_DBNAME`. -/
def ADMIN_DBNAME : String := "admin"

namespace AuthorizationSessionImpl

/-- The constructor: no user, no impersonation. -/
def create (externalState : AuthzSessionExternalState) : AuthorizationSessionImpl :=
  ⟨externalState, [], [], [], [], false⟩

/-- `AuthorizationSessionImpl::getDefaultPrivileges`. -/
def getDefaultPrivileges (s : AuthorizationSessionImpl) : PrivilegeVector :=
  let defaultPrivileges : PrivilegeVector := []
  if s._externalState.shouldAllowLocalhost then
    let adminDBResource := ResourcePattern.forDatabaseName ADMIN_DBNAME
    let setupAdminUserActionSet : ActionSet :=
      (ActionSet.addAction ∅ ActionType.createUser).addAction ActionType.grantRole
    let setupAdminUserPrivilege : Privilege := ⟨adminDBResource, setupAdminUserActionSet⟩
    let externalDBResource := ResourcePattern.forDatabaseName "$external"
    let setupExternalUserPrivilege := Privilege.ofAction externalDBResource ActionType.createUser
    let setupServerConfigActionSet0 : ActionSet := ∅
    let setupServerConfigActionSet1 : ActionSet :=
      if s._externalState.serverIsArbiter then
        (((setupServerConfigActionSet0.addAction ActionType.getCmdLineOpts).addAction
          ActionType.getParameter).addAction ActionType.serverStatus).addAction
          ActionType.shutdown
      else setupServerConfigActionSet0
    let setupServerConfigActionSet : ActionSet :=
      ((setupServerConfigActionSet1.addAction ActionType.addShard).addAction
        ActionType.replSetConfigure).addAction ActionType.replSetGetStatus
    let setupServerConfigPrivilege : Privilege :=
      ⟨ResourcePattern.forClusterResource, setupServerConfigActionSet⟩
    let v1 := Privilege.addPrivilegeToPrivilegeVector defaultPrivileges setupAdminUserPrivilege
    let v2 := Privilege.addPrivilegeToPrivilegeVector v1 setupExternalUserPrivilege
    Privilege.addPrivilegeToPrivilegeVector v2 setupServerConfigPrivilege
  else defaultPrivileges

/-- The inner loop of `_isAuthorizedForPrivilege` over the search list for one default
privilege `it`. `none`: the function returned `true`; `some unmet`: the loop ended with
these requirements unmet. -/
def scanDefaultPrivilege (it : Privilege) :
    List ResourcePattern → ActionSet → Option ActionSet
  | [], unmetRequirements => some unmetRequirements
  | r :: rest, unmetRequirements =>
    if !(it.getResourcePattern == r) then scanDefaultPrivilege it rest unmetRequirements
    else
      let userActions := it.getActions
      let unmet := unmetRequirements.removeAllActionsFromSet userActions
      if unmet.empty then none else scanDefaultPrivilege it rest unmet

/-- The loop of `_isAuthorizedForPrivilege` over the default privileges. -/
def scanDefaultPrivileges (resourceSearchList : List ResourcePattern) :
    PrivilegeVector → ActionSet → Option ActionSet
  | [], unmetRequirements => some unmetRequirements
  | it :: rest, unmetRequirements =>
    match scanDefaultPrivilege it resourceSearchList unmetRequirements with
    | none => none
    | some unmet => scanDefaultPrivileges resourceSearchList rest unmet

/-- The inner loop of `_isAuthorizedForPrivilege` over the search list for one user. -/
def scanUser (user : User) : List ResourcePattern → ActionSet → Option ActionSet
  | [], unmetRequirements => some unmetRequirements
  | r :: rest, unmetRequirements =>
    let userActions := user.getActionsForResource r
    let unmet := unmetRequirements.removeAllActionsFromSet userActions
    if unmet.empty then none else scanUser user rest unmet

/-- The loop of `_isAuthorizedForPrivilege` over the authenticated users. -/
def scanUsers (resourceSearchList : List ResourcePattern) :
    List User → ActionSet → Option ActionSet
  | [], unmetRequirements => some unmetRequirements
  | user :: rest, unmetRequirements =>
    match scanUser user resourceSearchList unmetRequirements with
    | none => none
    | some unmet => scanUsers resourceSearchList rest unmet

/-- `AuthorizationSessionImpl::_isAuthorizedForPrivilege`. -/
def _isAuthorizedForPrivilege (s : AuthorizationSessionImpl) (privilege : Privilege) : Bool :=
  let target := privilege.getResourcePattern
  let resourceSearchList := buildResourceSearchList target
  let unmetRequirements := privilege.getActions
  let defaultPrivileges := s.getDefaultPrivileges
  match scanDefaultPrivileges resourceSearchList defaultPrivileges unmetRequirements with
  | none => true
  | some unmet =>
    match scanUsers resourceSearchList s._authenticatedUsers unmet with
    | none => true
    | some _ => false

/-- `AuthorizationSessionImpl::isAuthorizedForPrivilege`. -/
def isAuthorizedForPrivilege (s : AuthorizationSessionImpl) (privilege : Privilege) : Bool :=
  if s._externalState.shouldIgnoreAuthChecks then true
  else s._isAuthorizedForPrivilege privilege

/-- The loop of `isAuthorizedForPrivileges` over the vector: `false` at the first
privilege that is not authorized. -/
def allAuthorized (s : AuthorizationSessionImpl) : List Privilege → Bool
  | [] => true
  | p :: rest => if !s._isAuthorizedForPrivilege p then false else allAuthorized s rest

/-- `AuthorizationSessionImpl::isAuthorizedForPrivileges`. -/
def isAuthorizedForPrivileges (s : AuthorizationSessionImpl) (privileges : List Privilege) :
    Bool :=
  if s._externalState.shouldIgnoreAuthChecks then true
  else allAuthorized s privileges

/-- `AuthorizationSessionImpl::isAuthorizedForActionsOnResource`, for one action. -/
def isAuthorizedForActionsOnResource (s : AuthorizationSessionImpl)
    (resource : ResourcePattern) (action : ActionType) : Bool :=
  s.isAuthorizedForPrivilege (Privilege.ofAction resource action)

/-- `AuthorizationSessionImpl::isAuthorizedForActionsOnResource`, for an action set. -/
def isAuthorizedForActionsOnResource_ActionSet (s : AuthorizationSessionImpl)
    (resource : ResourcePattern) (actions : ActionSet) : Bool :=
  s.isAuthorizedForPrivilege ⟨resource, actions⟩

/-- `AuthorizationSessionImpl::isAuthorizedForActionsOnNamespace`, for one action. -/
def isAuthorizedForActionsOnNamespace (s : AuthorizationSessionImpl)
    (ns : NamespaceString) (action : ActionType) : Bool :=
  s.isAuthorizedForPrivilege (Privilege.ofAction (ResourcePattern.forExactNamespace ns) action)

/-- `AuthorizationSessionImpl::isAuthorizedForActionsOnNamespace`, for an action set. -/
def isAuthorizedForActionsOnNamespace_ActionSet (s : AuthorizationSessionImpl)
    (ns : NamespaceString) (actions : ActionSet) : Bool :=
  s.isAuthorizedForPrivilege ⟨ResourcePattern.forExactNamespace ns, actions⟩

/-- The inner loop of `_buildAuthenticatedRolesVector` over one user's indirect roles,
pushing each role name at the back of the vector. -/
def pushIndirectRoles : List RoleName → List RoleName → List RoleName
  | [], roleNames => roleNames
  | roleName :: rest, roleNames =>
    pushIndirectRoles rest (roleNames ++ [⟨roleName.getRole, roleName.getDB⟩])

/-- The loop of `_buildAuthenticatedRolesVector` over the authenticated users. -/
def pushUsersRoles : List User → List RoleName → List RoleName
  | [], roleNames => roleNames
  | user :: rest, roleNames =>
    pushUsersRoles rest (pushIndirectRoles user.getIndirectRoles roleNames)

/-- `AuthorizationSessionImpl::_buildAuthenticatedRolesVector`. -/
def _buildAuthenticatedRolesVector (s : AuthorizationSessionImpl) : AuthorizationSessionImpl :=
  { s with _authenticatedRoleNames := pushUsersRoles s._authenticatedUsers [] }

/-- The `while` loop of `_refreshUserInfoAsNeeded`. The state is the directory's state,
the user set and the iterator `it`; each unit of fuel pays for one iteration, and `none`
is returned when the fuel runs out before `it` reaches `end()`. The scope guard
`removeGuard` runs `removeAt(it++)` on every path that leaves the block without
dismissing it: the entry is removed and `it` designates its successor. -/
def refreshLoop {σ : Type} (authMan : AuthorizationManager σ) :
    Nat → σ → UserSet → Nat → Option (UserSet × σ)
  | 0, dir, users, it =>
    match users[it]? with
    | none => some (users, dir)
    | some _ => none
  | fuel + 1, dir, users, it =>
    match users[it]? with
    | none => some (users, dir)
    | some user =>
      if !user.isValid then
        let name := user.getName
        let swUser := authMan.acquireUserForSessionRefresh dir name user.getID
        match swUser.1 with
        | StatusWith.value updatedUser =>
          match updatedUser.validateRestrictions with
          | RestrictionResult.returned restrictionStatus =>
            if !restrictionStatus.isOK then
              refreshLoop authMan fuel swUser.2 (UserSet.removeAt users it) it
            else
              refreshLoop authMan fuel swUser.2 (UserSet.replaceAt users it updatedUser)
                (it + 1)
          | RestrictionResult.raised =>
            refreshLoop authMan fuel swUser.2 (UserSet.removeAt users it) it
        | StatusWith.error ErrorCodes.UserNotFound =>
          refreshLoop authMan fuel swUser.2 (UserSet.removeAt users it) it
        | StatusWith.error ErrorCodes.UnsupportedFormat =>
          refreshLoop authMan fuel swUser.2 (UserSet.removeAt users it) it
        | StatusWith.error _ =>
          refreshLoop authMan fuel swUser.2 users (it + 1)
      else refreshLoop authMan fuel dir users (it + 1)

/-- `AuthorizationSessionImpl::_refreshUserInfoAsNeeded`: the loop from `begin()`, then
`_buildAuthenticatedRolesVector`. Returns the session and the directory's state. -/
def _refreshUserInfoAsNeeded {σ : Type} (authMan : AuthorizationManager σ) (fuel : Nat)
    (dir : σ) (s : AuthorizationSessionImpl) : Option (AuthorizationSessionImpl × σ) :=
  match refreshLoop authMan fuel dir s._authenticatedUsers 0 with
  | none => none
  | some r => some (({ s with _authenticatedUsers := r.1 })._buildAuthenticatedRolesVector, r.2)

end AuthorizationSessionImpl

/-! ## Authentication, logout and session checks -/

namespace UserSet

/-- Modelled from the spec: `UserSet::add` (user_set.h) is not among the sources. The set
holds at most one user per database: the stored user of the new user's database, when
there is one, is replaced at its position; otherwise the new user is added at the end. -/
def add : UserSet → User → UserSet
  | [], user => [user]
  | storedUser :: rest, user =>
    if user.getName.getDB == storedUser.getName.getDB then user :: rest
    else storedUser :: add rest user

/-- Modelled from the spec: `UserSet::removeByDBName` (user_set.h) is not among the
sources. The set holds at most one user per database: the stored user of the database,
when there is one, is removed. -/
def removeByDBName : UserSet → String → UserSet
  | [], _ => []
  | user :: rest, dbname =>
    if user.getName.getDB == dbname then rest
    else user :: removeByDBName rest dbname

end UserSet

/-- How a call ends: it returns a value, or an exception leaves it. -/
inductive Outcome (α : Type) where
  | returned (value : α)
  | raised
deriving DecidableEq

/-- Modelled from the spec: `LogicalSessionId` (logical_session_id.h) is not among the
sources. Session ids are compared for equality only. -/
structure LogicalSessionId where
  getId : Nat
deriving DecidableEq, Repr

/-- `AuthorizationManager::authenticationFailedStatus`. -/
def AuthorizationManager.authenticationFailedStatus : Status :=
  Status.error ErrorCodes.AuthenticationFailed

namespace AuthorizationSessionImpl

/-- `AuthorizationSessionImpl::clearImpersonatedUserData`. -/
def clearImpersonatedUserData (s : AuthorizationSessionImpl) : AuthorizationSessionImpl :=
  { s with
    _impersonatedUserNames := []
    _impersonatedRoleNames := []
    _impersonationFlag := false }

/-- `AuthorizationSessionImpl::setImpersonatedUserData`. -/
def setImpersonatedUserData (s : AuthorizationSessionImpl) (usernames : List UserName)
    (roles : List RoleName) : AuthorizationSessionImpl :=
  { s with
    _impersonatedUserNames := usernames
    _impersonatedRoleNames := roles
    _impersonationFlag := true }

/-- `AuthorizationSessionImpl::isImpersonating`. -/
def isImpersonating (s : AuthorizationSessionImpl) : Bool := s._impersonationFlag

/-- `AuthorizationSessionImpl::getImpersonatedUserNames`. -/
def getImpersonatedUserNames (s : AuthorizationSessionImpl) : List UserName :=
  s._impersonatedUserNames

/-- `AuthorizationSessionImpl::getImpersonatedRoleNames`. -/
def getImpersonatedRoleNames (s : AuthorizationSessionImpl) : List RoleName :=
  s._impersonatedRoleNames

/-- `AuthorizationSessionImpl::getAuthenticatedRoleNames`. -/
def getAuthenticatedRoleNames (s : AuthorizationSessionImpl) : List RoleName :=
  s._authenticatedRoleNames

/-- `AuthorizationSessionImpl::isAuthenticated`: `begin() != end()`. -/
def isAuthenticated (s : AuthorizationSessionImpl) : Bool :=
  !s._authenticatedUsers.isEmpty

/-- `AuthorizationSessionImpl::addAndAuthorizeUser`. Returns how the call ends, the
session afterwards and the directory's state. An exception of `validateRestrictions` is
not caught here and leaves the function. -/
def addAndAuthorizeUser {σ : Type} (authMan : AuthorizationManager σ) (dir : σ)
    (s : AuthorizationSessionImpl) (userName : UserName) :
    Outcome Status × AuthorizationSessionImpl × σ :=
  let swUser := authMan.acquireUser dir userName
  match swUser.1 with
  | StatusWith.error code => (Outcome.returned (Status.error code), s, swUser.2)
  | StatusWith.value user =>
    match user.validateRestrictions with
    | RestrictionResult.raised => (Outcome.raised, s, swUser.2)
    | RestrictionResult.returned restrictionStatus =>
      if !restrictionStatus.isOK then
        (Outcome.returned AuthorizationManager.authenticationFailedStatus, s, swUser.2)
      else
        let s1 := { s with _authenticatedUsers := UserSet.add s._authenticatedUsers user }
        let s2 := s1.clearImpersonatedUserData
        (Outcome.returned Status.OK, s2._buildAuthenticatedRolesVector, swUser.2)

/-- `AuthorizationSessionImpl::logoutDatabase`. The audit event, emitted when the number
of users changes, leaves the session as it is and is not part of the state. -/
def logoutDatabase (s : AuthorizationSessionImpl) (dbname : String) :
    AuthorizationSessionImpl :=
  let updatedUsers := UserSet.removeByDBName s._authenticatedUsers dbname
  let s1 := { s with _authenticatedUsers := updatedUsers }
  s1.clearImpersonatedUserData._buildAuthenticatedRolesVector

/-- `AuthorizationSessionImpl::grantInternalAuthorization`; `internalUser` is
`internalSecurity.user`. -/
def grantInternalAuthorization (s : AuthorizationSessionImpl) (internalUser : User) :
    AuthorizationSessionImpl :=
  ({ s with _authenticatedUsers := UserSet.add s._authenticatedUsers internalUser }
    )._buildAuthenticatedRolesVector

/-- `AuthorizationSessionImpl::checkCursorSessionPrivilege`; `opCtxSessionId` is
`opCtx->getLogicalSessionId()`. -/
def checkCursorSessionPrivilege {σ : Type} (authMan : AuthorizationManager σ)
    (s : AuthorizationSessionImpl) (opCtxSessionId cursorSessionId : Option LogicalSessionId) :
    Status :=
  let nobodyIsLoggedIn := !s.isAuthenticated
  let authHasImpersonatePrivilege :=
    s.isAuthorizedForPrivilege
      (Privilege.ofAction ResourcePattern.forClusterResource ActionType.impersonate)
  let authIsOn := authMan.isAuthEnabled
  if authIsOn && cursorSessionId != opCtxSessionId && !nobodyIsLoggedIn &&
      !authHasImpersonatePrivilege then
    Status.error ErrorCodes.Unauthorized
  else Status.OK

end AuthorizationSessionImpl

/-! ## Further session checks -/

/-- Modelled from the spec: `User::hasActionsForResource` (user.h) is not among the
sources. The user has actions for a resource when the action set granted on it is not
empty. -/
def User.hasActionsForResource (u : User) (resource : ResourcePattern) : Bool :=
  !(u.getActionsForResource resource).empty

/-- `ResourcePattern::databaseToMatch`: the database name the pattern carries. -/
def ResourcePattern.databaseToMatch (r : ResourcePattern) : String := r.ns.db

/-- Modelled from the spec: `UserSet::getNames` (user_set.h) is not among the sources. The
names of the stored users, in the order of the set. -/
def UserSet.getNames (users : UserSet) : List UserName :=
  users.map (fun u => u.getName)

/-- Modelled from the spec: `UserSet::lookup` (user_set.h) is not among the sources. The
stored user of the given name, when there is one. -/
def UserSet.lookup (users : UserSet) (name : UserName) : Option User :=
  users.find? (fun u => u.getName == name)

/-- Modelled from the spec: `BSONType` (bsontypes.h) is not among the sources. The types
that `isAuthorizedToParseNamespaceElement` tells apart; `Other` stands for every other
type. -/
inductive BSONType where
  | String
  | BinData
  | Other (code : Nat)
deriving DecidableEq, Repr

/-- Modelled from the spec: `BinDataType` (bsontypes.h) is not among the sources. The
subtype of a binary value; `Other` stands for every subtype but the UUID one. -/
inductive BinDataType where
  | newUUID
  | Other (code : Nat)
deriving DecidableEq, Repr

/-- Modelled from the spec: `BSONElement` (bsonelement.h) is not among the sources. An
element has a type and, read only when the type is `BinData`, a binary subtype. -/
structure BSONElement where
  type : BSONType
  binDataType : BinDataType
deriving DecidableEq, Repr

/-- How a call that may `uassert` ends: it returns a value, or an exception with an error
code leaves it. -/
inductive UassertResult (α : Type) where
  | returned (value : α)
  | uasserted (code : ErrorCodes)
deriving DecidableEq

namespace AuthorizationSessionImpl

/-- `AuthorizationSessionImpl::getAuthenticatedUserNames`. -/
def getAuthenticatedUserNames (s : AuthorizationSessionImpl) : List UserName :=
  UserSet.getNames s._authenticatedUsers

/-- `AuthorizationSessionImpl::lookupUser`. -/
def lookupUser (s : AuthorizationSessionImpl) (name : UserName) : Option User :=
  UserSet.lookup s._authenticatedUsers name

/-- `AuthorizationSessionImpl::isAuthorizedToParseNamespaceElement`, for an element. -/
def isAuthorizedToParseNamespaceElement (s : AuthorizationSessionImpl)
    (element : BSONElement) : UassertResult Bool :=
  let isUUID := element.type == BSONType.BinData && element.binDataType == BinDataType.newUUID
  if !(element.type == BSONType.String || isUUID) then
    UassertResult.uasserted ErrorCodes.InvalidNamespace
  else if isUUID then
    UassertResult.returned
      (s.isAuthorizedForActionsOnResource ResourcePattern.forClusterResource ActionType.useUUID)
  else UassertResult.returned true

/-- The loop of `isAuthorizedToCreateRole` over the authenticated users: `true` at the
first user that has the role. -/
def someUserHasRole (roleName : RoleName) : List User → Bool
  | [] => false
  | user :: rest => if user.hasRole roleName then true else someUserHasRole roleName rest

/-- `AuthorizationSessionImpl::isAuthorizedToCreateRole`. -/
def isAuthorizedToCreateRole (s : AuthorizationSessionImpl) (roleName : RoleName) : Bool :=
  if s.isAuthorizedForActionsOnResource (ResourcePattern.forDatabaseName roleName.getDB)
      ActionType.createRole then true
  else if s._externalState.shouldAllowLocalhost then
    if someUserHasRole roleName s._authenticatedUsers then true else false
  else false

/-- The loop of `isAuthorizedToChangeAsUser` over the search list, adding the user's
actions for each entry to `actions`. -/
def addActionsOfUser (user : User) : List ResourcePattern → ActionSet → ActionSet
  | [], actions => actions
  | r :: rest, actions =>
    addActionsOfUser user rest (actions.addAllActionsFromSet (user.getActionsForResource r))

/-- `AuthorizationSessionImpl::isAuthorizedToChangeAsUser`. -/
def isAuthorizedToChangeAsUser (s : AuthorizationSessionImpl) (userName : UserName)
    (actionType : ActionType) : Bool :=
  match s.lookupUser userName with
  | none => false
  | some user =>
    let resourceSearchList :=
      buildResourceSearchList (ResourcePattern.forDatabaseName userName.getDB)
    let actions := addActionsOfUser user resourceSearchList ∅
    actions.contains actionType

/-- The loop of `isAuthorizedForAnyActionOnAnyResourceInDB` over the privileges of one
user: `true` at a collection pattern, and at an exact namespace of the database. -/
def somePrivilegeInDB (db : String) : List (ResourcePattern × ActionSet) → Bool
  | [] => false
  | privilege :: rest =>
    if privilege.1.isCollectionPattern then true
    else if privilege.1.isExactNamespacePattern && privilege.1.databaseToMatch == db then true
    else somePrivilegeInDB db rest

/-- The loop of `isAuthorizedForAnyActionOnAnyResourceInDB` over the authenticated
users. -/
def someUserActsInDB (db : String) : List User → Bool
  | [] => false
  | user :: rest =>
    if user.hasActionsForResource (ResourcePattern.forDatabaseName db) then true
    else if user.hasActionsForResource ResourcePattern.forAnyResource then true
    else if db != "local" && db != "config" &&
        user.hasActionsForResource ResourcePattern.forAnyNormalResource then true
    else if somePrivilegeInDB db user.getPrivileges then true
    else someUserActsInDB db rest

/-- `AuthorizationSessionImpl::isAuthorizedForAnyActionOnAnyResourceInDB`. -/
def isAuthorizedForAnyActionOnAnyResourceInDB (s : AuthorizationSessionImpl) (db : String) :
    Bool :=
  if s._externalState.shouldIgnoreAuthChecks then true
  else someUserActsInDB db s._authenticatedUsers

/-- The inner loop of `isAuthorizedForAnyActionOnResource` over the authenticated users,
for one entry of the search list. -/
def someUserHasActions (r : ResourcePattern) : List User → Bool
  | [] => false
  | user :: rest => if user.hasActionsForResource r then true else someUserHasActions r rest

/-- The loop of `isAuthorizedForAnyActionOnResource` over the search list. -/
def someEntryHasActions (users : List User) : List ResourcePattern → Bool
  | [] => false
  | r :: rest => if someUserHasActions r users then true else someEntryHasActions users rest

/-- `AuthorizationSessionImpl::isAuthorizedForAnyActionOnResource`. -/
def isAuthorizedForAnyActionOnResource (s : AuthorizationSessionImpl)
    (resource : ResourcePattern) : Bool :=
  if s._externalState.shouldIgnoreAuthChecks then true
  else someEntryHasActions s._authenticatedUsers (buildResourceSearchList resource)

/-- `AuthorizationSessionImpl::checkAuthorizedToListCollections`; `authorizedCollections`
and `nameOnly` are the `trueValue()` of the two fields of the command. -/
def checkAuthorizedToListCollections (s : AuthorizationSessionImpl) (dbname : String)
    (authorizedCollections nameOnly : Bool) : StatusWith PrivilegeVector :=
  if authorizedCollections && nameOnly && s.isAuthorizedForAnyActionOnAnyResourceInDB dbname then
    StatusWith.value []
  else
    let privileges : PrivilegeVector :=
      [Privilege.ofAction (ResourcePattern.forDatabaseName dbname) ActionType.listCollections]
    if s.isAuthorizedForPrivileges privileges then StatusWith.value privileges
    else StatusWith.error ErrorCodes.Unauthorized

/-- The lambda `getUserNames` of `isCoauthorizedWithClient`: the impersonated user names
of a session that is impersonating, its authenticated user names otherwise. -/
def getUserNames (authSession : AuthorizationSessionImpl) : List UserName :=
  if authSession.isImpersonating then authSession.getImpersonatedUserNames
  else authSession.getAuthenticatedUserNames

/-- The inner loop of `isCoauthorizedWithClient` and of `isCoauthorizedWith`: `true` at
the first name of the second sequence that equals `name`. -/
def equalsSomeName (name : UserName) : List UserName → Bool
  | [] => false
  | opName :: rest => if name == opName then true else equalsSomeName name rest

/-- The outer loop of `isCoauthorizedWithClient` and of `isCoauthorizedWith`. -/
def someNameInCommon (opNames : List UserName) : List UserName → Bool
  | [] => false
  | name :: rest => if equalsSomeName name opNames then true else someNameInCommon opNames rest

/-- `AuthorizationSessionImpl::isCoauthorizedWithClient`; `other` is the session of
`opClient`. -/
def isCoauthorizedWithClient (s other : AuthorizationSessionImpl) : Bool :=
  someNameInCommon (getUserNames other) (getUserNames s)

/-- `AuthorizationSessionImpl::isCoauthorizedWith`. -/
def isCoauthorizedWith {σ : Type} (authMan : AuthorizationManager σ)
    (s : AuthorizationSessionImpl) (userNameIter : List UserName) : Bool :=
  if !authMan.isAuthEnabled then true
  else if userNameIter.isEmpty && !s.isAuthenticated then true
  else someNameInCommon s.getAuthenticatedUserNames userNameIter

/-- The body of `_isAuthorizedForPrivilege` with the search list, the default privileges
and the authenticated users as parameters. -/
def isAuthorizedWith (resourceSearchList : List ResourcePattern)
    (defaultPrivileges : PrivilegeVector) (users : List User) (unmetRequirements : ActionSet) :
    Bool :=
  match scanDefaultPrivileges resourceSearchList defaultPrivileges unmetRequirements with
  | none => true
  | some unmet =>
    match scanUsers resourceSearchList users unmet with
    | none => true
    | some _ => false

end AuthorizationSessionImpl

/-! ## Specification-level definitions -/

/-- The spec's union of granted action sets for a target resource: the action sets of the
default privileges whose resource pattern occurs in the search list of the target, and
`getActionsForResource` of every authenticated user for every entry of the search list. -/
def grantedActions (s : AuthorizationSessionImpl) (target : ResourcePattern) : ActionSet :=
  let searchList := buildResourceSearchList target
  (s.getDefaultPrivileges.filter (fun p => searchList.contains p.getResourcePattern)).foldr
      (fun p acc => p.getActions ∪ acc) ∅
    ∪ s._authenticatedUsers.foldr
      (fun u acc => searchList.foldr (fun r acc2 => u.getActionsForResource r ∪ acc2) acc) ∅

/-- The spec's widening of an identity set: identities are appended at the end, and an
identity is replaced by one whose granted action set is a superset for every resource
pattern. -/
def Widened (L L2 : List User) : Prop :=
  ∃ L1 extra : List User, L2 = L1 ++ extra ∧
    List.Forall₂
      (fun u v => ∀ r : ResourcePattern, u.getActionsForResource r ⊆ v.getActionsForResource r)
      L L1

/-- The spec's treatment of one stale identity by the refresh protocol, from the
directory's answer: `some u` is the identity at its position afterwards, `none` says it
is removed. -/
def refreshedEntry (stale : User) : StatusWith User → Option User
  | StatusWith.value refreshed =>
    match refreshed.validateRestrictions with
    | RestrictionResult.returned Status.OK => some refreshed
    | RestrictionResult.returned (Status.error _) => none
    | RestrictionResult.raised => none
  | StatusWith.error ErrorCodes.UserNotFound => none
  | StatusWith.error ErrorCodes.UnsupportedFormat => none
  | StatusWith.error _ => some stale

/-- The spec's refresh pass: every entry is treated once, in order; a valid identity is
kept without a directory call, a stale one is treated by `refreshedEntry` on the
directory's answer. Returns the identities afterwards and the directory's state. -/
def refreshPass {σ : Type} (authMan : AuthorizationManager σ) : σ → List User → List User × σ
  | dir, [] => ([], dir)
  | dir, u :: rest =>
    if u.isValid then
      let r := refreshPass authMan dir rest
      (u :: r.1, r.2)
    else
      let answer := authMan.acquireUserForSessionRefresh dir u.getName u.getID
      let r := refreshPass authMan answer.2 rest
      ((refreshedEntry u answer.1).toList ++ r.1, r.2)

/-- The sequence of action sets that `_isAuthorizedForPrivilege` removes from the unmet
requirements, one after the other: for each default privilege one removal per search
list entry that equals its pattern, then for each user one removal per entry. -/
def removalSteps (s : AuthorizationSessionImpl) (target : ResourcePattern) : List ActionSet :=
  let searchList := buildResourceSearchList target
  s.getDefaultPrivileges.flatMap
      (fun d => (searchList.filter (fun r => d.getResourcePattern == r)).map
        (fun _ => d.getActions))
    ++ s._authenticatedUsers.flatMap
      (fun u => searchList.map (fun r => u.getActionsForResource r))

/-- Removing a sequence of action sets one after the other, stopping with `none` as soon
as nothing is left unmet. -/
def removeEach : List ActionSet → ActionSet → Option ActionSet
  | [], unmet => some unmet
  | g :: rest, unmet =>
    if (unmet.removeAllActionsFromSet g).empty then none
    else removeEach rest (unmet.removeAllActionsFromSet g)

/-- The spec's invariant of the identity set: at most one identity per originating
database. -/
def AtMostOnePerDB (L : List User) : Prop :=
  (L.map (fun u => u.getName.getDB)).Nodup

instance instDecidableAtMostOnePerDB (L : List User) : Decidable (AtMostOnePerDB L) :=
  inferInstanceAs (Decidable (List.Nodup _))

/-- The spec's role-name cache of an identity set: the indirect role names of its
identities, concatenated in the order of the set. -/
def indirectRoleNames (L : List User) : List RoleName :=
  L.flatMap (fun u => u.getIndirectRoles)

/-- A finite sequence of `addAndAuthorizeUser` calls, one per name, whatever the way each
call ends. Returns the session and the directory's state after the last call. -/
def addAndAuthorizeUsers {σ : Type} (authMan : AuthorizationManager σ) :
    σ → AuthorizationSessionImpl → List UserName → AuthorizationSessionImpl × σ
  | dir, s, [] => (s, dir)
  | dir, s, userName :: rest =>
    let r := AuthorizationSessionImpl.addAndAuthorizeUser authMan dir s userName
    addAndAuthorizeUsers authMan r.2.2 r.2.1 rest

/-! ## Test data -/

/-- An external state with authorization checks on and no localhost exception. -/
def plainState : AuthzSessionExternalState := ⟨false, false, false⟩

/-- A valid user of database `db` holding `actions` on `Database(db)`. -/
def dbUser (db : String) (actions : ActionSet) : User :=
  ⟨⟨"u", db⟩, 1, true, [(ResourcePattern.forDatabaseName db, actions)], [], [],
    RestrictionResult.returned Status.OK⟩

/-- A stale user named `name` of database `test`, without grants. -/
def staleUser (name : String) : User :=
  ⟨⟨name, "test"⟩, 7, false, [], [], [], RestrictionResult.returned Status.OK⟩

/-- A directory that counts its calls. On refresh, `a` is found again, `b` is not found,
`c` is in an unsupported format, `d` fails with another error, `e` is found with
restrictions that are not met, `f` is found with restrictions that raise. -/
def countingDirectory : AuthorizationManager Nat where
  isAuthEnabled := true
  acquireUser := fun n name => (StatusWith.value (dbUser name.getDB ∅), n + 1)
  acquireUserForSessionRefresh := fun n name _ =>
    (if name.getUser = "a" then StatusWith.value (dbUser "test" {ActionType.find})
     else if name.getUser = "b" then StatusWith.error ErrorCodes.UserNotFound
     else if name.getUser = "c" then StatusWith.error ErrorCodes.UnsupportedFormat
     else if name.getUser = "d" then StatusWith.error (ErrorCodes.Other 1)
     else if name.getUser = "e" then
       StatusWith.value { dbUser "test" ∅ with
         validateRestrictions := RestrictionResult.returned
           (Status.error ErrorCodes.AuthenticationFailed) }
     else StatusWith.value { dbUser "test" ∅ with validateRestrictions := RestrictionResult.raised },
     n + 1)

/-- A fixed directory without state. On acquisition, `x` is not found, `y` has restrictions
that are not met, `z` has restrictions that raise, and every other name is a valid user
of its database with the indirect role `r`. On refresh no name is found. -/
def fixedDirectory : AuthorizationManager Unit where
  isAuthEnabled := true
  acquireUser := fun _ name =>
    (if name.getUser = "x" then StatusWith.error ErrorCodes.UserNotFound
     else if name.getUser = "y" then
       StatusWith.value { dbUser name.getDB ∅ with
         validateRestrictions := RestrictionResult.returned (Status.error (ErrorCodes.Other 2)) }
     else if name.getUser = "z" then
       StatusWith.value { dbUser name.getDB ∅ with validateRestrictions := RestrictionResult.raised }
     else StatusWith.value { dbUser name.getDB ∅ with
       getName := name
       getIndirectRoles := [⟨"r", name.getDB⟩] },
     ())
  acquireUserForSessionRefresh := fun _ _ _ => (StatusWith.error ErrorCodes.UserNotFound, ())

/-- A fixed directory without state whose refresh answers with the identity asked for, of
the same name and id: `a` is found again with `find` on `Database(test)` and is still
stale, `c` is found again and is valid, `d` fails with an error that is neither
`UserNotFound` nor `UnsupportedFormat`; every other name is not found. -/
def steadyDirectory : AuthorizationManager Unit where
  isAuthEnabled := true
  acquireUser := fun _ _ => (StatusWith.error ErrorCodes.UserNotFound, ())
  acquireUserForSessionRefresh := fun _ name id =>
    (if name.getUser = "a" then
       StatusWith.value { staleUser "a" with
         getName := name
         getID := id
         getPrivileges := [(ResourcePattern.forDatabaseName "test", {ActionType.find})] }
     else if name.getUser = "c" then
       StatusWith.value { staleUser "c" with
         getName := name
         getID := id
         isValid := true }
     else if name.getUser = "d" then StatusWith.error (ErrorCodes.Other 1)
     else StatusWith.error ErrorCodes.UserNotFound,
     ())

/-- A session with authorization checks on whose authenticated users are `users`. -/
def sessionOf (users : List User) : AuthorizationSessionImpl :=
  { AuthorizationSessionImpl.create plainState with _authenticatedUsers := users }


/-! ## The resource search list -/

/-- C2: for every resource pattern the search list has between one and
`resourceSearchListCapacity` (five) entries, its first entry is `AnyResource` and its last
entry is the target. -/
theorem buildResourceSearchList_bounds (r : ResourcePattern) :
    1 ≤ (buildResourceSearchList r).length ∧
    (buildResourceSearchList r).length ≤ resourceSearchListCapacity ∧
    (buildResourceSearchList r).head? = some ResourcePattern.forAnyResource ∧
    (buildResourceSearchList r).getLast? = some r := by
  cases r <;>
    simp [buildResourceSearchList, resourceSearchListCapacity,
      ResourcePattern.isExactNamespacePattern, ResourcePattern.isDatabasePattern,
      ResourcePattern.ns] <;>
    split_ifs <;> simp

/-- C3, as stated, fails: the search list of `AnyResource` is not the one-element list. -/
theorem buildResourceSearchList_anyResource_ne_singleton :
    buildResourceSearchList ResourcePattern.forAnyResource ≠ [ResourcePattern.forAnyResource] := by
  decide

/-- C3, amended: the search list of `AnyResource` is the two-element list
`[AnyResource, AnyResource]`, as the comment on `buildResourceSearchList` says. -/
theorem buildResourceSearchList_anyResource :
    buildResourceSearchList ResourcePattern.forAnyResource =
      [ResourcePattern.forAnyResource, ResourcePattern.forAnyResource] := by
  decide

/-- C4, as stated, fails: `local.foo` is in the `local` database, and its search list has
a `Database(local)` entry. -/
theorem buildResourceSearchList_local_foo :
    ("local" = "local" ∨ "local" = "config") ∧
    buildResourceSearchList (ResourcePattern.forExactNamespace ⟨"local", "foo"⟩) =
      [ResourcePattern.forAnyResource, ResourcePattern.forDatabaseName "local",
        ResourcePattern.forCollectionName "foo",
        ResourcePattern.forExactNamespace ⟨"local", "foo"⟩] ∧
    buildResourceSearchList (ResourcePattern.forExactNamespace ⟨"local", "foo"⟩) ≠
      [ResourcePattern.forAnyResource, ResourcePattern.forCollectionName "foo",
        ResourcePattern.forExactNamespace ⟨"local", "foo"⟩] := by
  decide

/-- C4, amended: for an exact namespace that is not a normal collection (system-prefixed,
or `replset.`-prefixed in `local`) the search list is
`[AnyResource, Collection(coll), ExactNamespace(db, coll)]`; for a normal collection of
`local` or `config` it is
`[AnyResource, Database(db), Collection(coll), ExactNamespace(db, coll)]`, without
`AnyNormalResource`. -/
theorem buildResourceSearchList_exact_restricted (db coll : String)
    (h : (⟨db, coll⟩ : NamespaceString).isNormalCollection = false ∨ db = "local" ∨
      db = "config") :
    buildResourceSearchList (ResourcePattern.forExactNamespace ⟨db, coll⟩) =
      if (⟨db, coll⟩ : NamespaceString).isNormalCollection then
        [ResourcePattern.forAnyResource, ResourcePattern.forDatabaseName db,
          ResourcePattern.forCollectionName coll, ResourcePattern.forExactNamespace ⟨db, coll⟩]
      else
        [ResourcePattern.forAnyResource, ResourcePattern.forCollectionName coll,
          ResourcePattern.forExactNamespace ⟨db, coll⟩] := by
  by_cases hn : (⟨db, coll⟩ : NamespaceString).isNormalCollection = true
  · have hdb : db = "local" ∨ db = "config" := by
      rcases h with h | h
      · rw [hn] at h; cases h
      · exact h
    rcases hdb with hdb | hdb <;> subst hdb <;>
      simp [buildResourceSearchList, ResourcePattern.isExactNamespacePattern,
        ResourcePattern.ns, hn]
  · simp [buildResourceSearchList, ResourcePattern.isExactNamespacePattern,
      ResourcePattern.ns, hn]

/-- Witness of C4, amended: `test.system.users` is not a normal collection, `config.foo`
is a normal collection of `config`. -/
theorem buildResourceSearchList_exact_restricted_witness :
    buildResourceSearchList (ResourcePattern.forExactNamespace ⟨"test", "system.users"⟩) =
      [ResourcePattern.forAnyResource, ResourcePattern.forCollectionName "system.users",
        ResourcePattern.forExactNamespace ⟨"test", "system.users"⟩] ∧
    buildResourceSearchList (ResourcePattern.forExactNamespace ⟨"config", "foo"⟩) =
      [ResourcePattern.forAnyResource, ResourcePattern.forDatabaseName "config",
        ResourcePattern.forCollectionName "foo",
        ResourcePattern.forExactNamespace ⟨"config", "foo"⟩] :=
  ⟨(buildResourceSearchList_exact_restricted "test" "system.users" (Or.inl (by decide))).trans
      (by decide),
    (buildResourceSearchList_exact_restricted "config" "foo" (Or.inr (Or.inr rfl))).trans
      (by decide)⟩

/-- C5: the remaining rows of the precedence table. `ClusterResource` gives
`[AnyResource, ClusterResource]`; `Database(db)` gives
`[AnyResource, AnyNormalResource, Database(db)]` when `db` is neither `local` nor `config`
and `[AnyResource, Database(db)]` otherwise; `ExactNamespace(db, coll)` with `coll` not
system-prefixed and `db` neither `local` nor `config` gives the five entries
`[AnyResource, AnyNormalResource, Database(db), Collection(coll), ExactNamespace(db, coll)]`. -/
theorem buildResourceSearchList_table :
    buildResourceSearchList ResourcePattern.forClusterResource =
      [ResourcePattern.forAnyResource, ResourcePattern.forClusterResource] ∧
    (∀ db : String, db ≠ "local" → db ≠ "config" →
      buildResourceSearchList (ResourcePattern.forDatabaseName db) =
        [ResourcePattern.forAnyResource, ResourcePattern.forAnyNormalResource,
          ResourcePattern.forDatabaseName db]) ∧
    (∀ db : String, db = "local" ∨ db = "config" →
      buildResourceSearchList (ResourcePattern.forDatabaseName db) =
        [ResourcePattern.forAnyResource, ResourcePattern.forDatabaseName db]) ∧
    (∀ db coll : String, startsWith coll "system." = false → db ≠ "local" → db ≠ "config" →
      buildResourceSearchList (ResourcePattern.forExactNamespace ⟨db, coll⟩) =
        [ResourcePattern.forAnyResource, ResourcePattern.forAnyNormalResource,
          ResourcePattern.forDatabaseName db, ResourcePattern.forCollectionName coll,
          ResourcePattern.forExactNamespace ⟨db, coll⟩]) := by
  refine ⟨by decide, ?_, ?_, ?_⟩
  · intro db h1 h2
    simp [buildResourceSearchList, ResourcePattern.isExactNamespacePattern,
      ResourcePattern.isDatabasePattern, ResourcePattern.ns, h1, h2]
  · intro db h
    rcases h with h | h <;> subst h <;>
      simp [buildResourceSearchList, ResourcePattern.isExactNamespacePattern,
        ResourcePattern.isDatabasePattern, ResourcePattern.ns]
  · intro db coll hs h1 h2
    simp [buildResourceSearchList, ResourcePattern.isExactNamespacePattern,
      ResourcePattern.ns, NamespaceString.isNormalCollection, NamespaceString.isSystem,
      NamespaceString.isLocal, hs, h1, h2]

/-- Witness of C5: the rows at `test`, `local`, `config` and `test.foo`. -/
theorem buildResourceSearchList_table_witness :
    buildResourceSearchList (ResourcePattern.forDatabaseName "test") =
      [ResourcePattern.forAnyResource, ResourcePattern.forAnyNormalResource,
        ResourcePattern.forDatabaseName "test"] ∧
    buildResourceSearchList (ResourcePattern.forDatabaseName "config") =
      [ResourcePattern.forAnyResource, ResourcePattern.forDatabaseName "config"] ∧
    buildResourceSearchList (ResourcePattern.forExactNamespace ⟨"test", "foo"⟩) =
      [ResourcePattern.forAnyResource, ResourcePattern.forAnyNormalResource,
        ResourcePattern.forDatabaseName "test", ResourcePattern.forCollectionName "foo",
        ResourcePattern.forExactNamespace ⟨"test", "foo"⟩] :=
  ⟨buildResourceSearchList_table.2.1 "test" (by decide) (by decide),
    buildResourceSearchList_table.2.2.1 "config" (Or.inr rfl),
    buildResourceSearchList_table.2.2.2 "test" "foo" (by decide) (by decide) (by decide)⟩

/-! ## The authorization decision -/

theorem removeEach_append (g1 g2 : List ActionSet) (x : ActionSet) :
    removeEach (g1 ++ g2) x = (removeEach g1 x).bind (removeEach g2) := by
  induction g1 generalizing x with
  | nil => simp [removeEach]
  | cons g rest ih =>
    simp only [List.cons_append, removeEach]
    split_ifs
    · simp
    · exact ih _

theorem removeEach_eq_none_iff (gs : List ActionSet) (x : ActionSet) :
    removeEach gs x = none ↔ gs ≠ [] ∧ ∀ a ∈ x, ∃ g ∈ gs, a ∈ g := by
  induction gs generalizing x with
  | nil => simp [removeEach]
  | cons g rest ih =>
    simp only [removeEach, ActionSet.removeAllActionsFromSet, ActionSet.empty]
    by_cases he : x \ g = ∅
    · simp only [he, decide_True, if_true, true_iff]
      refine ⟨by simp, fun a ha => ⟨g, by simp, ?_⟩⟩
      by_contra hag
      have hmem : a ∈ x \ g := Finset.mem_sdiff.mpr ⟨ha, hag⟩
      rw [he] at hmem
      simp at hmem
    · simp only [he, decide_False, Bool.false_eq_true, if_false]
      rw [ih]
      constructor
      · rintro ⟨_, h⟩
        refine ⟨by simp, fun a ha => ?_⟩
        by_cases hag : a ∈ g
        · exact ⟨g, by simp, hag⟩
        · obtain ⟨g2, hg2, hag2⟩ := h a (Finset.mem_sdiff.mpr ⟨ha, hag⟩)
          exact ⟨g2, List.mem_cons_of_mem _ hg2, hag2⟩
      · rintro ⟨_, h⟩
        have key : ∀ a ∈ x \ g, ∃ g2 ∈ rest, a ∈ g2 := by
          intro a ha
          rw [Finset.mem_sdiff] at ha
          obtain ⟨g2, hg2, hag2⟩ := h a ha.1
          rcases List.mem_cons.mp hg2 with rfl | hg2
          · exact absurd hag2 ha.2
          · exact ⟨g2, hg2, hag2⟩
        obtain ⟨a, ha⟩ := Finset.nonempty_of_ne_empty he
        obtain ⟨g2, hg2, _⟩ := key a ha
        exact ⟨List.ne_nil_of_mem hg2, key⟩

theorem scanDefaultPrivilege_eq (it : Privilege) (l : List ResourcePattern) (x : ActionSet) :
    AuthorizationSessionImpl.scanDefaultPrivilege it l x =
      removeEach ((l.filter (fun r => it.getResourcePattern == r)).map
        (fun _ => it.getActions)) x := by
  induction l generalizing x with
  | nil => simp [AuthorizationSessionImpl.scanDefaultPrivilege, removeEach]
  | cons r rest ih =>
    cases hr : (it.getResourcePattern == r) with
    | true =>
      simp only [AuthorizationSessionImpl.scanDefaultPrivilege, hr, List.filter_cons,
        if_true, List.map_cons, removeEach, Bool.not_true, Bool.false_eq_true, if_false]
      split_ifs
      · rfl
      · exact ih _
    | false =>
      simp only [AuthorizationSessionImpl.scanDefaultPrivilege, hr, List.filter_cons,
        Bool.not_false, if_true, Bool.false_eq_true, if_false]
      exact ih _

theorem scanDefaultPrivileges_eq (l : List ResourcePattern) (ds : PrivilegeVector)
    (x : ActionSet) :
    AuthorizationSessionImpl.scanDefaultPrivileges l ds x =
      removeEach (ds.flatMap (fun d => (l.filter (fun r => d.getResourcePattern == r)).map
        (fun _ => d.getActions))) x := by
  induction ds generalizing x with
  | nil => simp [AuthorizationSessionImpl.scanDefaultPrivileges, removeEach]
  | cons d rest ih =>
    simp only [AuthorizationSessionImpl.scanDefaultPrivileges, List.flatMap_cons,
      removeEach_append, scanDefaultPrivilege_eq]
    cases removeEach ((l.filter (fun r => d.getResourcePattern == r)).map
        (fun _ => d.getActions)) x with
    | none => rfl
    | some y => exact ih y

theorem scanUser_eq (u : User) (l : List ResourcePattern) (x : ActionSet) :
    AuthorizationSessionImpl.scanUser u l x =
      removeEach (l.map (fun r => u.getActionsForResource r)) x := by
  induction l generalizing x with
  | nil => simp [AuthorizationSessionImpl.scanUser, removeEach]
  | cons r rest ih =>
    simp only [AuthorizationSessionImpl.scanUser, List.map_cons, removeEach]
    split_ifs
    · rfl
    · exact ih _

theorem scanUsers_eq (l : List ResourcePattern) (us : List User) (x : ActionSet) :
    AuthorizationSessionImpl.scanUsers l us x =
      removeEach (us.flatMap (fun u => l.map (fun r => u.getActionsForResource r))) x := by
  induction us generalizing x with
  | nil => simp [AuthorizationSessionImpl.scanUsers, removeEach]
  | cons u rest ih =>
    simp only [AuthorizationSessionImpl.scanUsers, List.flatMap_cons, removeEach_append,
      scanUser_eq]
    cases removeEach (l.map (fun r => u.getActionsForResource r)) x with
    | none => rfl
    | some y => exact ih y

theorem isAuthorizedForPrivilege_eq_removeEach (s : AuthorizationSessionImpl) (p : Privilege) :
    s._isAuthorizedForPrivilege p =
      (removeEach (removalSteps s p.getResourcePattern) p.getActions).isNone := by
  simp only [AuthorizationSessionImpl._isAuthorizedForPrivilege, removalSteps,
    removeEach_append, scanDefaultPrivileges_eq, scanUsers_eq]
  cases removeEach _ p.getActions with
  | none => rfl
  | some y =>
    simp only [Option.some_bind]
    cases removeEach _ y <;> rfl

theorem mem_foldr_union {α : Type} (f : α → ActionSet) (l : List α) (init : ActionSet)
    (a : ActionType) :
    a ∈ l.foldr (fun p acc => f p ∪ acc) init ↔ (∃ p ∈ l, a ∈ f p) ∨ a ∈ init := by
  induction l with
  | nil => simp
  | cons p rest ih =>
    simp only [List.foldr_cons, Finset.mem_union, ih, List.mem_cons, exists_eq_or_imp,
      or_assoc]

theorem mem_foldr_foldr_union (l : List ResourcePattern) (us : List User) (a : ActionType) :
    a ∈ us.foldr
        (fun u acc => l.foldr (fun r acc2 => u.getActionsForResource r ∪ acc2) acc) ∅ ↔
      ∃ u ∈ us, ∃ r ∈ l, a ∈ u.getActionsForResource r := by
  induction us with
  | nil => simp
  | cons u rest ih =>
    simp only [List.foldr_cons, mem_foldr_union, ih, List.mem_cons, exists_eq_or_imp]

theorem buildResourceSearchList_ne_nil (r : ResourcePattern) :
    buildResourceSearchList r ≠ [] := by
  simp [buildResourceSearchList]

theorem mem_grantedActions (s : AuthorizationSessionImpl) (t : ResourcePattern)
    (a : ActionType) :
    a ∈ grantedActions s t ↔
      (∃ d ∈ s.getDefaultPrivileges,
        d.getResourcePattern ∈ buildResourceSearchList t ∧ a ∈ d.getActions) ∨
      (∃ u ∈ s._authenticatedUsers, ∃ r ∈ buildResourceSearchList t,
        a ∈ u.getActionsForResource r) := by
  simp only [grantedActions, Finset.mem_union, mem_foldr_union, mem_foldr_foldr_union,
    List.mem_filter, List.contains, List.elem_eq_mem, decide_eq_true_eq, Finset.not_mem_empty,
    or_false]
  constructor
  · rintro (⟨d, ⟨hd, hr⟩, ha⟩ | h)
    · exact Or.inl ⟨d, hd, hr, ha⟩
    · exact Or.inr h
  · rintro (⟨d, hd, hr, ha⟩ | h)
    · exact Or.inl ⟨d, ⟨hd, hr⟩, ha⟩
    · exact Or.inr h

theorem exists_mem_removalSteps (s : AuthorizationSessionImpl) (t : ResourcePattern)
    (a : ActionType) :
    (∃ g ∈ removalSteps s t, a ∈ g) ↔ a ∈ grantedActions s t := by
  rw [mem_grantedActions]
  simp only [removalSteps, List.mem_append, List.mem_flatMap, List.mem_map, List.mem_filter,
    beq_iff_eq]
  constructor
  · rintro ⟨g, (⟨d, hd, r, ⟨hr, hdr⟩, rfl⟩ | ⟨u, hu, r, hr, rfl⟩), ha⟩
    · exact Or.inl ⟨d, hd, hdr ▸ hr, ha⟩
    · exact Or.inr ⟨u, hu, r, hr, ha⟩
  · rintro (⟨d, hd, hr, ha⟩ | ⟨u, hu, r, hr, ha⟩)
    · exact ⟨d.getActions, Or.inl ⟨d, hd, d.getResourcePattern, ⟨hr, rfl⟩, rfl⟩, ha⟩
    · exact ⟨_, Or.inr ⟨u, hu, r, hr, rfl⟩, ha⟩

theorem removalSteps_ne_nil_iff (s : AuthorizationSessionImpl) (t : ResourcePattern) :
    removalSteps s t ≠ [] ↔
      (s._authenticatedUsers ≠ [] ∨
        ∃ d ∈ s.getDefaultPrivileges, d.getResourcePattern ∈ buildResourceSearchList t) := by
  constructor
  · intro h
    obtain ⟨g, hg⟩ := List.exists_mem_of_ne_nil _ h
    simp only [removalSteps, List.mem_append, List.mem_flatMap, List.mem_map, List.mem_filter,
      beq_iff_eq] at hg
    rcases hg with ⟨d, hd, r, ⟨hr, hdr⟩, _⟩ | ⟨u, hu, _⟩
    · exact Or.inr ⟨d, hd, hdr ▸ hr⟩
    · exact Or.inl (List.ne_nil_of_mem hu)
  · rintro (h | ⟨d, hd, hr⟩)
    · obtain ⟨u, hu⟩ := List.exists_mem_of_ne_nil _ h
      obtain ⟨r, hr⟩ := List.exists_mem_of_ne_nil _ (buildResourceSearchList_ne_nil t)
      apply List.ne_nil_of_mem (a := u.getActionsForResource r)
      simp only [removalSteps, List.mem_append, List.mem_flatMap, List.mem_map]
      exact Or.inr ⟨u, hu, r, hr, rfl⟩
    · apply List.ne_nil_of_mem (a := d.getActions)
      simp only [removalSteps, List.mem_append, List.mem_flatMap, List.mem_map,
        List.mem_filter, beq_iff_eq]
      exact Or.inl ⟨d, hd, d.getResourcePattern, ⟨hr, rfl⟩, rfl⟩

/-- The decision of `_isAuthorizedForPrivilege`: some grant is examined, and the required
actions are among the granted ones. -/
theorem isAuthorizedForPrivilege_core (s : AuthorizationSessionImpl) (p : Privilege) :
    s._isAuthorizedForPrivilege p = true ↔
      (s._authenticatedUsers ≠ [] ∨
        ∃ d ∈ s.getDefaultPrivileges,
          d.getResourcePattern ∈ buildResourceSearchList p.getResourcePattern) ∧
      p.getActions ⊆ grantedActions s p.getResourcePattern := by
  rw [isAuthorizedForPrivilege_eq_removeEach, Option.isNone_iff_eq_none,
    removeEach_eq_none_iff, removalSteps_ne_nil_iff]
  simp only [exists_mem_removalSteps, Finset.subset_iff]

theorem getDefaultPrivileges_eq_nil (s : AuthorizationSessionImpl)
    (hl : s._externalState.shouldAllowLocalhost = false) : s.getDefaultPrivileges = [] := by
  simp [AuthorizationSessionImpl.getDefaultPrivileges, hl]

theorem getDefaultPrivileges_congr (s t : AuthorizationSessionImpl)
    (h : t._externalState = s._externalState) :
    t.getDefaultPrivileges = s.getDefaultPrivileges := by
  simp [AuthorizationSessionImpl.getDefaultPrivileges, h]

/-- C1, as stated, fails: with authorization checks on, no user and no default privilege,
the privilege with the empty action set is not authorized, though the empty set is a
subset of the granted actions. -/
theorem isAuthorizedForPrivilege_empty_actions_denied :
    (sessionOf [])._externalState.shouldIgnoreAuthChecks = false ∧
    ¬ ((sessionOf []).isAuthorizedForPrivilege ⟨ResourcePattern.forAnyResource, ∅⟩ = true ↔
      (⟨ResourcePattern.forAnyResource, ∅⟩ : Privilege).getActions ⊆
        grantedActions (sessionOf []) ResourcePattern.forAnyResource) := by
  decide

/-- C1, amended: with authorization checks not ignored, `isAuthorizedForPrivilege(p)` is
true exactly when the actions of `p` are a subset of the granted actions and at least
one grant is examined: the action set is not empty, or a user is authenticated, or the
pattern of a default privilege occurs in the search list. -/
theorem isAuthorizedForPrivilege_iff (s : AuthorizationSessionImpl) (p : Privilege)
    (h : s._externalState.shouldIgnoreAuthChecks = false) :
    s.isAuthorizedForPrivilege p = true ↔
      p.getActions ⊆ grantedActions s p.getResourcePattern ∧
      (p.getActions ≠ ∅ ∨ s._authenticatedUsers ≠ [] ∨
        ∃ d ∈ s.getDefaultPrivileges,
          d.getResourcePattern ∈ buildResourceSearchList p.getResourcePattern) := by
  simp only [AuthorizationSessionImpl.isAuthorizedForPrivilege, h, Bool.false_eq_true,
    if_false, isAuthorizedForPrivilege_core]
  constructor
  · rintro ⟨hx, hsub⟩
    exact ⟨hsub, Or.inr hx⟩
  · rintro ⟨hsub, hne | hx⟩
    · refine ⟨?_, hsub⟩
      obtain ⟨a, ha⟩ := Finset.nonempty_of_ne_empty hne
      rcases (mem_grantedActions s _ a).mp (hsub ha) with ⟨d, hd, hr, _⟩ | ⟨u, hu, _⟩
      · exact Or.inr ⟨d, hd, hr⟩
      · exact Or.inl (List.ne_nil_of_mem hu)
    · exact ⟨hx, hsub⟩

/-- Witness of C1, amended: a user holding `find` on `Database(test)` is authorized for
`find` on `test.foo`. -/
theorem isAuthorizedForPrivilege_iff_witness :
    (sessionOf [dbUser "test" {ActionType.find}]).isAuthorizedForPrivilege
      (Privilege.ofAction (ResourcePattern.forExactNamespace ⟨"test", "foo"⟩)
        ActionType.find) = true :=
  (isAuthorizedForPrivilege_iff (sessionOf [dbUser "test" {ActionType.find}])
    (Privilege.ofAction (ResourcePattern.forExactNamespace ⟨"test", "foo"⟩) ActionType.find)
    rfl).mpr ⟨by decide, Or.inl (by decide)⟩

/-- C7: when the external state says that authorization checks are ignored, every
decision is true, for every argument and every session state. -/
theorem isAuthorized_of_shouldIgnoreAuthChecks (s : AuthorizationSessionImpl)
    (h : s._externalState.shouldIgnoreAuthChecks = true) :
    (∀ p : Privilege, s.isAuthorizedForPrivilege p = true) ∧
    (∀ ps : List Privilege, s.isAuthorizedForPrivileges ps = true) ∧
    (∀ (r : ResourcePattern) (a : ActionType), s.isAuthorizedForActionsOnResource r a = true) ∧
    (∀ (r : ResourcePattern) (A : ActionSet),
      s.isAuthorizedForActionsOnResource_ActionSet r A = true) ∧
    (∀ (ns : NamespaceString) (a : ActionType),
      s.isAuthorizedForActionsOnNamespace ns a = true) ∧
    (∀ (ns : NamespaceString) (A : ActionSet),
      s.isAuthorizedForActionsOnNamespace_ActionSet ns A = true) := by
  simp [AuthorizationSessionImpl.isAuthorizedForPrivilege,
    AuthorizationSessionImpl.isAuthorizedForPrivileges,
    AuthorizationSessionImpl.isAuthorizedForActionsOnResource,
    AuthorizationSessionImpl.isAuthorizedForActionsOnResource_ActionSet,
    AuthorizationSessionImpl.isAuthorizedForActionsOnNamespace,
    AuthorizationSessionImpl.isAuthorizedForActionsOnNamespace_ActionSet, h]

/-- Witness of C7: a session without any user whose external state ignores authorization
checks authorizes `shutdown` on the cluster and `find` on `test.system.users`. -/
theorem isAuthorized_of_shouldIgnoreAuthChecks_witness :
    (AuthorizationSessionImpl.create ⟨true, false, false⟩).isAuthorizedForActionsOnResource
      ResourcePattern.forClusterResource ActionType.shutdown = true ∧
    (AuthorizationSessionImpl.create ⟨true, false, false⟩).isAuthorizedForActionsOnNamespace
      ⟨"test", "system.users"⟩ ActionType.find = true :=
  ⟨(isAuthorized_of_shouldIgnoreAuthChecks (AuthorizationSessionImpl.create ⟨true, false, false⟩)
      rfl).2.2.1 ResourcePattern.forClusterResource ActionType.shutdown,
    (isAuthorized_of_shouldIgnoreAuthChecks (AuthorizationSessionImpl.create ⟨true, false, false⟩)
      rfl).2.2.2.2.1 ⟨"test", "system.users"⟩ ActionType.find⟩

theorem allAuthorized_iff (s : AuthorizationSessionImpl) (ps : List Privilege) :
    AuthorizationSessionImpl.allAuthorized s ps = true ↔
      ∀ p ∈ ps, s._isAuthorizedForPrivilege p = true := by
  induction ps with
  | nil => simp [AuthorizationSessionImpl.allAuthorized]
  | cons p rest ih =>
    cases hp : s._isAuthorizedForPrivilege p <;>
      simp [AuthorizationSessionImpl.allAuthorized, hp, ih]

/-- C8: for every session state and every vector of privileges,
`isAuthorizedForPrivileges(ps)` is true exactly when `isAuthorizedForPrivilege(p)` is true
for every `p` of `ps`; the empty vector passes. -/
theorem isAuthorizedForPrivileges_iff (s : AuthorizationSessionImpl) (ps : List Privilege) :
    s.isAuthorizedForPrivileges ps = true ↔ ∀ p ∈ ps, s.isAuthorizedForPrivilege p = true := by
  cases h : s._externalState.shouldIgnoreAuthChecks <;>
    simp [AuthorizationSessionImpl.isAuthorizedForPrivileges,
      AuthorizationSessionImpl.isAuthorizedForPrivilege, h, allAuthorized_iff]

theorem getActionsForResource_single (u : User) (k : ResourcePattern) (A : ActionSet)
    (hp : u.getPrivileges = [(k, A)]) (r : ResourcePattern) :
    u.getActionsForResource r = if r = k then A else ∅ := by
  by_cases h : r = k
  · subst h
    simp [User.getActionsForResource, hp, List.lookup]
  · have hb : (r == k) = false := by simpa using h
    simp [User.getActionsForResource, hp, List.lookup, hb, h]

theorem forDatabaseName_mem_searchList_exact (db coll : String) :
    ResourcePattern.forDatabaseName db ∈
        buildResourceSearchList (ResourcePattern.forExactNamespace ⟨db, coll⟩) ↔
      (⟨db, coll⟩ : NamespaceString).isNormalCollection = true := by
  cases hn : (⟨db, coll⟩ : NamespaceString).isNormalCollection <;>
    simp [buildResourceSearchList, ResourcePattern.isExactNamespacePattern,
      ResourcePattern.ns, hn]

/-- C6, as stated, fails: a user whose only grant is `find` on `Database(local)` is not
authorized for `find` on `local.replset.minvalid`, a collection that is not
system-prefixed. -/
theorem isAuthorizedForActionsOnNamespace_local_replset_denied :
    (sessionOf [dbUser "local" {ActionType.find}])._externalState.shouldIgnoreAuthChecks
      = false ∧
    (sessionOf [dbUser "local" {ActionType.find}])._externalState.shouldAllowLocalhost
      = false ∧
    (dbUser "local" {ActionType.find}).getPrivileges =
      [(ResourcePattern.forDatabaseName "local", {ActionType.find})] ∧
    startsWith "replset.minvalid" "system." = false ∧
    (sessionOf [dbUser "local" {ActionType.find}]).isAuthorizedForActionsOnNamespace
      ⟨"local", "replset.minvalid"⟩ ActionType.find = false := by
  decide

/-- C6, amended: with authorization checks not ignored and the localhost exception
inactive, if the only authenticated user's only grant is an action set `A` on
`Database(db)`, then for every action `a` of `A` and every collection name `coll`,
`isAuthorizedForActionsOnNamespace(db.coll, a)` is true when `db.coll` is a normal
collection (not system-prefixed and, in `local`, not `replset.`-prefixed) and false
otherwise, in particular when `coll` is system-prefixed. -/
theorem isAuthorizedForActionsOnNamespace_database_grant (s : AuthorizationSessionImpl)
    (u : User) (db coll : String) (A : ActionSet) (a : ActionType)
    (hi : s._externalState.shouldIgnoreAuthChecks = false)
    (hl : s._externalState.shouldAllowLocalhost = false)
    (hu : s._authenticatedUsers = [u])
    (hp : u.getPrivileges = [(ResourcePattern.forDatabaseName db, A)])
    (ha : a ∈ A) :
    s.isAuthorizedForActionsOnNamespace ⟨db, coll⟩ a =
      (⟨db, coll⟩ : NamespaceString).isNormalCollection := by
  rw [Bool.eq_iff_iff, ← forDatabaseName_mem_searchList_exact]
  simp only [AuthorizationSessionImpl.isAuthorizedForActionsOnNamespace,
    AuthorizationSessionImpl.isAuthorizedForPrivilege, hi, Bool.false_eq_true, if_false,
    isAuthorizedForPrivilege_core, Privilege.ofAction, ActionSet.addAction,
    getDefaultPrivileges_eq_nil s hl, hu]
  constructor
  · rintro ⟨_, hsub⟩
    have hmem : a ∈ grantedActions s (ResourcePattern.forExactNamespace ⟨db, coll⟩) :=
      hsub (by simp)
    rw [mem_grantedActions, getDefaultPrivileges_eq_nil s hl, hu] at hmem
    rcases hmem with ⟨d, hd, _⟩ | ⟨v, hv, r, hr, har⟩
    · cases hd
    · rw [List.mem_singleton] at hv
      subst hv
      rw [getActionsForResource_single v _ A hp r] at har
      split_ifs at har with hrk
      · exact hrk ▸ hr
      · simp at har
  · intro hr
    refine ⟨Or.inl (by simp), ?_⟩
    intro b hb
    have hba : b = a := by simpa using hb
    subst hba
    rw [mem_grantedActions, hu]
    refine Or.inr ⟨u, by simp, ResourcePattern.forDatabaseName db, hr, ?_⟩
    rw [getActionsForResource_single u _ A hp]
    simpa using ha

/-- Witness of C6, amended: `find` on `Database(test)` authorizes `find` on `test.foo` and
does not authorize `find` on `test.system.users`. -/
theorem isAuthorizedForActionsOnNamespace_database_grant_witness :
    (sessionOf [dbUser "test" {ActionType.find}]).isAuthorizedForActionsOnNamespace
      ⟨"test", "foo"⟩ ActionType.find = true ∧
    (sessionOf [dbUser "test" {ActionType.find}]).isAuthorizedForActionsOnNamespace
      ⟨"test", "system.users"⟩ ActionType.find = false :=
  ⟨(isAuthorizedForActionsOnNamespace_database_grant
      (sessionOf [dbUser "test" {ActionType.find}]) (dbUser "test" {ActionType.find})
      "test" "foo" {ActionType.find} ActionType.find rfl rfl rfl rfl (by decide)).trans
      (by decide),
    (isAuthorizedForActionsOnNamespace_database_grant
      (sessionOf [dbUser "test" {ActionType.find}]) (dbUser "test" {ActionType.find})
      "test" "system.users" {ActionType.find} ActionType.find rfl rfl rfl rfl
      (by decide)).trans (by decide)⟩

theorem exists_of_forall₂_mem {R : User → User → Prop} {L L1 : List User}
    (h : List.Forall₂ R L L1) {u : User} (hu : u ∈ L) : ∃ v ∈ L1, R u v := by
  induction h with
  | nil => cases hu
  | cons hr _ ih =>
    rcases List.mem_cons.mp hu with rfl | hu
    · exact ⟨_, List.mem_cons_self _ _, hr⟩
    · obtain ⟨v, hv, hrv⟩ := ih hu
      exact ⟨v, List.mem_cons_of_mem _ hv, hrv⟩

/-- C9: `isAuthorizedForPrivilege` is monotonic in the grants. For a fixed external state
and privilege, when the identity set is widened (identities appended, an identity's
grants replaced by pointwise supersets), a decision that was true stays true. -/
theorem isAuthorizedForPrivilege_mono (s t : AuthorizationSessionImpl) (p : Privilege)
    (hext : t._externalState = s._externalState)
    (hw : Widened s._authenticatedUsers t._authenticatedUsers)
    (h : s.isAuthorizedForPrivilege p = true) :
    t.isAuthorizedForPrivilege p = true := by
  cases hi : s._externalState.shouldIgnoreAuthChecks with
  | true => simp [AuthorizationSessionImpl.isAuthorizedForPrivilege, hext, hi]
  | false =>
    simp only [AuthorizationSessionImpl.isAuthorizedForPrivilege, hext, hi, Bool.false_eq_true,
      if_false, isAuthorizedForPrivilege_core] at h ⊢
    obtain ⟨L1, extra, hL, hall⟩ := hw
    obtain ⟨hx, hsub⟩ := h
    rw [getDefaultPrivileges_congr s t hext]
    refine ⟨?_, ?_⟩
    · rcases hx with hx | hx
      · obtain ⟨u, hu⟩ := List.exists_mem_of_ne_nil _ hx
        obtain ⟨v, hv, _⟩ := exists_of_forall₂_mem hall hu
        refine Or.inl (List.ne_nil_of_mem (a := v) ?_)
        rw [hL]
        exact List.mem_append_left _ hv
      · exact Or.inr hx
    · intro a ha
      have hmem := hsub ha
      rw [mem_grantedActions] at hmem ⊢
      rw [getDefaultPrivileges_congr s t hext]
      rcases hmem with hd | ⟨u, hu, r, hr, har⟩
      · exact Or.inl hd
      · obtain ⟨v, hv, hrv⟩ := exists_of_forall₂_mem hall hu
        refine Or.inr ⟨v, ?_, r, hr, hrv r har⟩
        rw [hL]
        exact List.mem_append_left _ hv

theorem getActionsForResource_dbUser_mono (db : String) (A B : ActionSet) (h : A ⊆ B)
    (r : ResourcePattern) :
    (dbUser db A).getActionsForResource r ⊆ (dbUser db B).getActionsForResource r := by
  rw [getActionsForResource_single (dbUser db A) _ A rfl r,
    getActionsForResource_single (dbUser db B) _ B rfl r]
  split_ifs
  · exact h
  · exact Finset.Subset.refl _

/-- Witness of C9: the grant of the user of `test` is widened from `find` to `find` and
`insert`, and a user of `other` is appended; `find` on `test.foo` stays authorized. -/
theorem isAuthorizedForPrivilege_mono_witness :
    (sessionOf [dbUser "test" {ActionType.find, ActionType.insert},
      dbUser "other" {ActionType.find}]).isAuthorizedForPrivilege
      (Privilege.ofAction (ResourcePattern.forExactNamespace ⟨"test", "foo"⟩)
        ActionType.find) = true :=
  isAuthorizedForPrivilege_mono (sessionOf [dbUser "test" {ActionType.find}])
    (sessionOf [dbUser "test" {ActionType.find, ActionType.insert},
      dbUser "other" {ActionType.find}])
    (Privilege.ofAction (ResourcePattern.forExactNamespace ⟨"test", "foo"⟩) ActionType.find)
    rfl
    ⟨[dbUser "test" {ActionType.find, ActionType.insert}], [dbUser "other" {ActionType.find}],
      rfl,
      List.Forall₂.cons
        (getActionsForResource_dbUser_mono "test" _ _ (by decide)) List.Forall₂.nil⟩
    (by decide)

/-! ## The refresh of the cached users -/

theorem getElem?_append_length (pre rest : List User) (u : User) :
    (pre ++ u :: rest)[pre.length]? = some u := by
  rw [List.getElem?_append_right (Nat.le_refl _)]
  simp

theorem removeAt_append_length (pre rest : List User) (u : User) :
    UserSet.removeAt (pre ++ u :: rest) pre.length = pre ++ rest := by
  simp [UserSet.removeAt, List.eraseIdx_append_of_length_le]

theorem replaceAt_append_length (pre rest : List User) (u v : User) :
    UserSet.replaceAt (pre ++ u :: rest) pre.length v = pre ++ v :: rest := by
  simp [UserSet.replaceAt]

/-- The loop of `_refreshUserInfoAsNeeded`, started at the position after `pre` with
enough fuel for the entries that are left, ends with `pre` followed by what the refresh
pass makes of these entries. -/
theorem refreshLoop_eq_refreshPass {σ : Type} (authMan : AuthorizationManager σ)
    (rest : List User) :
    ∀ (pre : List User) (dir : σ) (fuel : Nat), rest.length ≤ fuel →
      AuthorizationSessionImpl.refreshLoop authMan fuel dir (pre ++ rest) pre.length =
        some (pre ++ (refreshPass authMan dir rest).1, (refreshPass authMan dir rest).2) := by
  induction rest with
  | nil =>
    intro pre dir fuel _
    cases fuel <;> simp [AuthorizationSessionImpl.refreshLoop, refreshPass]
  | cons u rest ih =>
    intro pre dir fuel hf
    cases fuel with
    | zero => simp at hf
    | succ f =>
      have hf2 : rest.length ≤ f := by simpa using hf
      have adv : ∀ (v : User) (dir2 : σ),
          AuthorizationSessionImpl.refreshLoop authMan f dir2 (pre ++ v :: rest)
              (pre.length + 1) =
            some (pre ++ v :: (refreshPass authMan dir2 rest).1,
              (refreshPass authMan dir2 rest).2) := by
        intro v dir2
        have h := ih (pre ++ [v]) dir2 f hf2
        simpa using h
      have rem : ∀ dir2 : σ,
          AuthorizationSessionImpl.refreshLoop authMan f dir2
              (UserSet.removeAt (pre ++ u :: rest) pre.length) pre.length =
            some (pre ++ (refreshPass authMan dir2 rest).1,
              (refreshPass authMan dir2 rest).2) := by
        intro dir2
        rw [removeAt_append_length]
        exact ih pre dir2 f hf2
      rw [AuthorizationSessionImpl.refreshLoop, getElem?_append_length]
      cases hv : u.isValid with
      | true => simp [refreshPass, hv, adv]
      | false =>
        simp only [Bool.not_false, if_true, refreshPass, hv, Bool.false_eq_true, if_false]
        cases hans : (authMan.acquireUserForSessionRefresh dir u.getName u.getID).1 with
        | value updatedUser =>
          simp only [refreshedEntry]
          cases hres : updatedUser.validateRestrictions with
          | returned st =>
            cases st with
            | OK => simp [Status.isOK, replaceAt_append_length, adv]
            | error code => simp [Status.isOK, rem]
          | raised => simp [rem]
        | error code =>
          cases code <;> simp [refreshedEntry, rem, adv]

/-- C10: with fuel for every entry, `_refreshUserInfoAsNeeded` returns, and the identity
set it leaves is the one of the refresh pass: every original entry is treated once, in
order; a valid identity is kept, a stale one is replaced in place by the refreshed
identity when the refresh succeeds and the restrictions are met, removed when the
refresh says `UserNotFound` or `UnsupportedFormat` or the restriction validation fails
or raises, and kept in place on any other error. The role names are rebuilt from the
identity set that is left. -/
theorem refreshUserInfoAsNeeded_eq_refreshPass {σ : Type} (authMan : AuthorizationManager σ)
    (fuel : Nat) (dir : σ) (s : AuthorizationSessionImpl)
    (hf : s._authenticatedUsers.length ≤ fuel) :
    AuthorizationSessionImpl._refreshUserInfoAsNeeded authMan fuel dir s =
      some ({ s with
          _authenticatedUsers := (refreshPass authMan dir s._authenticatedUsers).1
          _authenticatedRoleNames :=
            AuthorizationSessionImpl.pushUsersRoles
              (refreshPass authMan dir s._authenticatedUsers).1 [] },
        (refreshPass authMan dir s._authenticatedUsers).2) := by
  have h := refreshLoop_eq_refreshPass authMan s._authenticatedUsers [] dir fuel hf
  simp only [List.nil_append, List.length_nil] at h
  simp [AuthorizationSessionImpl._refreshUserInfoAsNeeded, h,
    AuthorizationSessionImpl._buildAuthenticatedRolesVector]

/-- Witness of C10: of the users `a` (stale, refreshed), `v` (valid), `b` (not found),
`c` (unsupported format), `d` (other error), `e` (restrictions not met) and `f`
(restrictions raise), the pass keeps `v` and `d`, replaces `a`, and removes the others;
the directory is called six times. -/
theorem refreshUserInfoAsNeeded_eq_refreshPass_witness :
    AuthorizationSessionImpl._refreshUserInfoAsNeeded countingDirectory 7 0
        (sessionOf [staleUser "a", dbUser "v" ∅, staleUser "b", staleUser "c", staleUser "d",
          staleUser "e", staleUser "f"]) =
      some (sessionOf [dbUser "test" {ActionType.find}, dbUser "v" ∅, staleUser "d"], 6) :=
  (refreshUserInfoAsNeeded_eq_refreshPass countingDirectory 7 0
    (sessionOf [staleUser "a", dbUser "v" ∅, staleUser "b", staleUser "c", staleUser "d",
      staleUser "e", staleUser "f"]) (by decide)).trans (by decide)

/-! ## Idempotence of the refresh -/

theorem refreshPass_eq_self {σ : Type} (authMan : AuthorizationManager σ) (dir : σ)
    (hfix : ∀ name id, (authMan.acquireUserForSessionRefresh dir name id).2 = dir)
    (L : List User)
    (h : ∀ u ∈ L, u.isValid = true ∨
      refreshedEntry u (authMan.acquireUserForSessionRefresh dir u.getName u.getID).1 = some u) :
    refreshPass authMan dir L = (L, dir) := by
  induction L with
  | nil => rfl
  | cons u rest ih =>
    have ihr := ih (fun v hv => h v (List.mem_cons_of_mem _ hv))
    cases hv : u.isValid with
    | true => simp [refreshPass, hv, ihr]
    | false =>
      have hu := h u (List.mem_cons_self _ _)
      rw [hv] at hu
      rcases hu with hu | hu
      · cases hu
      · simp [refreshPass, hv, hfix, ihr, hu]

theorem refreshPass_snd {σ : Type} (authMan : AuthorizationManager σ) (dir : σ)
    (hfix : ∀ name id, (authMan.acquireUserForSessionRefresh dir name id).2 = dir)
    (L : List User) : (refreshPass authMan dir L).2 = dir := by
  induction L with
  | nil => rfl
  | cons u rest ih =>
    cases hv : u.isValid <;> simp [refreshPass, hv, hfix, ih]

theorem refreshPass_length_le {σ : Type} (authMan : AuthorizationManager σ) (L : List User) :
    ∀ dir : σ, (refreshPass authMan dir L).1.length ≤ L.length := by
  induction L with
  | nil => intro dir; simp [refreshPass]
  | cons u rest ih =>
    intro dir
    cases hv : u.isValid with
    | true => simpa [refreshPass, hv] using ih dir
    | false =>
      simp only [refreshPass, hv, Bool.false_eq_true, if_false, List.length_append,
        List.length_cons]
      have h1 := ih (authMan.acquireUserForSessionRefresh dir u.getName u.getID).2
      have h2 : (refreshedEntry u
          (authMan.acquireUserForSessionRefresh dir u.getName u.getID).1).toList.length ≤ 1 := by
        cases refreshedEntry u (authMan.acquireUserForSessionRefresh dir u.getName u.getID).1 <;>
          simp
      omega

theorem refreshPass_stable {σ : Type} (authMan : AuthorizationManager σ) (dir : σ)
    (hfix : ∀ name id, (authMan.acquireUserForSessionRefresh dir name id).2 = dir)
    (hdir : ∀ name id u,
      (authMan.acquireUserForSessionRefresh dir name id).1 = StatusWith.value u →
        u.isValid = true ∨ (u.getName = name ∧ u.getID = id))
    (L : List User) :
    ∀ v ∈ (refreshPass authMan dir L).1, v.isValid = true ∨
      refreshedEntry v (authMan.acquireUserForSessionRefresh dir v.getName v.getID).1 = some v := by
  induction L with
  | nil => intro v hv; simp [refreshPass] at hv
  | cons u rest ih =>
    intro v hv
    cases hu : u.isValid with
    | true =>
      simp only [refreshPass, hu, if_true, List.mem_cons] at hv
      rcases hv with rfl | hv
      · exact Or.inl hu
      · exact ih v hv
    | false =>
      simp only [refreshPass, hu, Bool.false_eq_true, if_false, hfix, List.mem_append,
        Option.mem_toList, Option.mem_def] at hv
      rcases hv with hv | hv
      · cases hans : (authMan.acquireUserForSessionRefresh dir u.getName u.getID).1 with
        | value w =>
          rw [hans] at hv
          simp only [refreshedEntry] at hv
          cases hres : w.validateRestrictions with
          | raised => simp [hres] at hv
          | returned st =>
            cases st with
            | error code => simp [hres] at hv
            | OK =>
              simp only [hres, Option.some.injEq] at hv
              subst hv
              rcases hdir _ _ _ hans with hw | ⟨hn, hi⟩
              · exact Or.inl hw
              · right
                rw [hn, hi, hans]
                simp [refreshedEntry, hres]
        | error code =>
          rw [hans] at hv
          have hvu : v = u := by
            cases code <;> simp [refreshedEntry] at hv <;> exact hv.symm
          subst hvu
          exact Or.inr (hans ▸ hv)
      · exact ih v hv

/-- C11: the refresh is idempotent. For a fixed directory, whose state does not change and
whose refresh answers with the identity asked for (an identity of the name and id asked
for; an answer that is a valid identity is admitted too), and with fuel for every entry,
the second run of `_refreshUserInfoAsNeeded` returns the session that the first run
returned: the same identity set and the same role names. -/
theorem refreshUserInfoAsNeeded_idempotent {σ : Type} (authMan : AuthorizationManager σ)
    (fuel : Nat) (dir : σ) (s : AuthorizationSessionImpl)
    (hfix : ∀ name id, (authMan.acquireUserForSessionRefresh dir name id).2 = dir)
    (hdir : ∀ name id u,
      (authMan.acquireUserForSessionRefresh dir name id).1 = StatusWith.value u →
        u.isValid = true ∨ (u.getName = name ∧ u.getID = id))
    (hf : s._authenticatedUsers.length ≤ fuel) :
    ∃ t : AuthorizationSessionImpl,
      AuthorizationSessionImpl._refreshUserInfoAsNeeded authMan fuel dir s = some (t, dir) ∧
      AuthorizationSessionImpl._refreshUserInfoAsNeeded authMan fuel dir t = some (t, dir) := by
  have h1 := refreshLoop_eq_refreshPass authMan s._authenticatedUsers [] dir fuel hf
  simp only [List.nil_append, List.length_nil] at h1
  have hsnd := refreshPass_snd authMan dir hfix s._authenticatedUsers
  have hself := refreshPass_eq_self authMan dir hfix _
    (refreshPass_stable authMan dir hfix hdir s._authenticatedUsers)
  have hlen := refreshPass_length_le authMan s._authenticatedUsers dir
  have h2 := refreshLoop_eq_refreshPass authMan (refreshPass authMan dir s._authenticatedUsers).1
    [] dir fuel (le_trans hlen hf)
  simp only [List.nil_append, List.length_nil, hself] at h2
  rw [hsnd] at h1
  refine ⟨({ s with _authenticatedUsers :=
    (refreshPass authMan dir s._authenticatedUsers).1 })._buildAuthenticatedRolesVector, ?_, ?_⟩
  · simp [AuthorizationSessionImpl._refreshUserInfoAsNeeded, h1]
  · simp [AuthorizationSessionImpl._refreshUserInfoAsNeeded, h2,
      AuthorizationSessionImpl._buildAuthenticatedRolesVector]

/-- Witness of C11: the steady directory answers every refresh with the identity asked
for. The first run replaces `a` (still stale) and `c`, keeps the valid `v` and the stale
`d`, and removes `b`; the second run returns the same session. -/
theorem refreshUserInfoAsNeeded_idempotent_witness :
    AuthorizationSessionImpl._refreshUserInfoAsNeeded steadyDirectory 5 ()
        (sessionOf [staleUser "a", dbUser "v" ∅, staleUser "b", staleUser "c",
          staleUser "d"]) =
      some (sessionOf [{ staleUser "a" with
            getPrivileges := [(ResourcePattern.forDatabaseName "test", {ActionType.find})] },
          dbUser "v" ∅, { staleUser "c" with isValid := true }, staleUser "d"], ()) ∧
    AuthorizationSessionImpl._refreshUserInfoAsNeeded steadyDirectory 5 ()
        (sessionOf [{ staleUser "a" with
            getPrivileges := [(ResourcePattern.forDatabaseName "test", {ActionType.find})] },
          dbUser "v" ∅, { staleUser "c" with isValid := true }, staleUser "d"]) =
      some (sessionOf [{ staleUser "a" with
            getPrivileges := [(ResourcePattern.forDatabaseName "test", {ActionType.find})] },
          dbUser "v" ∅, { staleUser "c" with isValid := true }, staleUser "d"], ()) := by
  obtain ⟨t, h1, h2⟩ := refreshUserInfoAsNeeded_idempotent steadyDirectory 5 ()
    (sessionOf [staleUser "a", dbUser "v" ∅, staleUser "b", staleUser "c", staleUser "d"])
    (fun _ _ => rfl)
    (fun name id u h => by
      right
      simp only [steadyDirectory] at h
      split_ifs at h <;> (cases h; exact ⟨rfl, rfl⟩))
    (by decide)
  have h0 : AuthorizationSessionImpl._refreshUserInfoAsNeeded steadyDirectory 5 ()
      (sessionOf [staleUser "a", dbUser "v" ∅, staleUser "b", staleUser "c",
        staleUser "d"]) =
      some (sessionOf [{ staleUser "a" with
            getPrivileges := [(ResourcePattern.forDatabaseName "test", {ActionType.find})] },
          dbUser "v" ∅, { staleUser "c" with isValid := true }, staleUser "d"], ()) := by
    decide
  have ht : t = sessionOf [{ staleUser "a" with
        getPrivileges := [(ResourcePattern.forDatabaseName "test", {ActionType.find})] },
      dbUser "v" ∅, { staleUser "c" with isValid := true }, staleUser "d"] := by
    rw [h0] at h1
    simpa using h1.symm
  subst ht
  exact ⟨h1, h2⟩

/-! ## Authentication and logout -/

/-- C12, as stated, fails: the acquisition of `z` succeeds and `validateRestrictions` does
not return a failed status, it raises; `addAndAuthorizeUser` does not return OK, the
exception leaves it. -/
theorem addAndAuthorizeUser_raises :
    (∃ u : User, (fixedDirectory.acquireUser () ⟨"z", "test"⟩).1 = StatusWith.value u ∧
      u.validateRestrictions = RestrictionResult.raised) ∧
    (AuthorizationSessionImpl.addAndAuthorizeUser fixedDirectory () (sessionOf [])
      ⟨"z", "test"⟩).1 ≠ Outcome.returned Status.OK ∧
    (AuthorizationSessionImpl.addAndAuthorizeUser fixedDirectory () (sessionOf [])
      ⟨"z", "test"⟩).1 = Outcome.raised :=
  ⟨⟨_, rfl, rfl⟩, by decide, by decide⟩

/-- C12, amended: `addAndAuthorizeUser` returns a failed status in two cases: the error of
`acquireUser` when the acquisition fails, and `authenticationFailedStatus` when the
acquired user's `validateRestrictions` returns a failed status. When `validateRestrictions`
raises, the exception leaves `addAndAuthorizeUser`. In these three cases the session (the
identity set, the impersonation data, the role names) is unchanged. When
`validateRestrictions` returns OK, `addAndAuthorizeUser` returns OK. -/
theorem addAndAuthorizeUser_outcomes {σ : Type} (authMan : AuthorizationManager σ) (dir : σ)
    (s : AuthorizationSessionImpl) (userName : UserName) :
    (∀ code, (authMan.acquireUser dir userName).1 = StatusWith.error code →
      AuthorizationSessionImpl.addAndAuthorizeUser authMan dir s userName =
        (Outcome.returned (Status.error code), s, (authMan.acquireUser dir userName).2)) ∧
    (∀ user code, (authMan.acquireUser dir userName).1 = StatusWith.value user →
      user.validateRestrictions = RestrictionResult.returned (Status.error code) →
      AuthorizationSessionImpl.addAndAuthorizeUser authMan dir s userName =
        (Outcome.returned AuthorizationManager.authenticationFailedStatus, s,
          (authMan.acquireUser dir userName).2)) ∧
    (∀ user, (authMan.acquireUser dir userName).1 = StatusWith.value user →
      user.validateRestrictions = RestrictionResult.raised →
      AuthorizationSessionImpl.addAndAuthorizeUser authMan dir s userName =
        (Outcome.raised, s, (authMan.acquireUser dir userName).2)) ∧
    (∀ user, (authMan.acquireUser dir userName).1 = StatusWith.value user →
      user.validateRestrictions = RestrictionResult.returned Status.OK →
      (AuthorizationSessionImpl.addAndAuthorizeUser authMan dir s userName).1 =
        Outcome.returned Status.OK) := by
  refine ⟨?_, ?_, ?_, ?_⟩
  · intro code h
    simp [AuthorizationSessionImpl.addAndAuthorizeUser, h]
  · intro user code h hr
    simp [AuthorizationSessionImpl.addAndAuthorizeUser, h, hr, Status.isOK]
  · intro user h hr
    simp [AuthorizationSessionImpl.addAndAuthorizeUser, h, hr]
  · intro user h hr
    simp [AuthorizationSessionImpl.addAndAuthorizeUser, h, hr, Status.isOK]

/-- Witness of C12, amended: `x` is not found and `y` has restrictions that are not met;
the session, with impersonation data, is left as it was. -/
theorem addAndAuthorizeUser_outcomes_witness :
    AuthorizationSessionImpl.addAndAuthorizeUser fixedDirectory ()
        ((sessionOf [dbUser "test" ∅]).setImpersonatedUserData [⟨"i", "test"⟩] [])
        ⟨"x", "test"⟩ =
      (Outcome.returned (Status.error ErrorCodes.UserNotFound),
        (sessionOf [dbUser "test" ∅]).setImpersonatedUserData [⟨"i", "test"⟩] [], ()) ∧
    AuthorizationSessionImpl.addAndAuthorizeUser fixedDirectory ()
        ((sessionOf [dbUser "test" ∅]).setImpersonatedUserData [⟨"i", "test"⟩] [])
        ⟨"y", "test"⟩ =
      (Outcome.returned (Status.error ErrorCodes.AuthenticationFailed),
        (sessionOf [dbUser "test" ∅]).setImpersonatedUserData [⟨"i", "test"⟩] [], ()) :=
  ⟨(addAndAuthorizeUser_outcomes fixedDirectory ()
      ((sessionOf [dbUser "test" ∅]).setImpersonatedUserData [⟨"i", "test"⟩] [])
      ⟨"x", "test"⟩).1 ErrorCodes.UserNotFound rfl,
    (addAndAuthorizeUser_outcomes fixedDirectory ()
      ((sessionOf [dbUser "test" ∅]).setImpersonatedUserData [⟨"i", "test"⟩] [])
      ⟨"y", "test"⟩).2.1 _ (ErrorCodes.Other 2) rfl rfl⟩

theorem mem_add_self (L : UserSet) (u : User) : u ∈ UserSet.add L u := by
  induction L with
  | nil => simp [UserSet.add]
  | cons x rest ih =>
    simp only [UserSet.add]
    split_ifs
    · exact List.mem_cons_self _ _
    · exact List.mem_cons_of_mem _ ih

theorem mem_add_of_mem (L : UserSet) (u v : User) (hv : v ∈ L)
    (hne : v.getName.getDB ≠ u.getName.getDB) : v ∈ UserSet.add L u := by
  induction L with
  | nil => cases hv
  | cons x rest ih =>
    simp only [UserSet.add]
    rcases List.mem_cons.mp hv with rfl | hv
    · have hb : (u.getName.getDB == v.getName.getDB) = false := by
        simpa using fun h => hne h.symm
      simp [hb]
    · split_ifs
      · exact List.mem_cons_of_mem _ hv
      · exact List.mem_cons_of_mem _ (ih hv)

theorem eq_of_mem_add (L : UserSet) (u : User) (hinv : AtMostOnePerDB L) :
    ∀ v ∈ UserSet.add L u, v.getName.getDB = u.getName.getDB → v = u := by
  induction L with
  | nil =>
    intro v hv _
    simpa [UserSet.add] using hv
  | cons x rest ih =>
    intro v hv hdb
    simp only [AtMostOnePerDB, List.map_cons, List.nodup_cons, List.mem_map, not_exists,
      not_and] at hinv
    by_cases hx : u.getName.getDB = x.getName.getDB
    · simp only [UserSet.add, hx, beq_self_eq_true, if_true, List.mem_cons] at hv
      rcases hv with rfl | hv
      · rfl
      · exact absurd (hdb.trans hx) (hinv.1 v hv)
    · have hb : (u.getName.getDB == x.getName.getDB) = false := by simpa using hx
      simp only [UserSet.add, hb, Bool.false_eq_true, if_false, List.mem_cons] at hv
      rcases hv with rfl | hv
      · exact absurd hdb.symm hx
      · exact ih hinv.2 v hv hdb

theorem map_getDB_add (L : UserSet) (u : User) :
    (UserSet.add L u).map (fun w => w.getName.getDB) =
      if u.getName.getDB ∈ L.map (fun w => w.getName.getDB) then
        L.map (fun w => w.getName.getDB)
      else L.map (fun w => w.getName.getDB) ++ [u.getName.getDB] := by
  induction L with
  | nil => simp [UserSet.add]
  | cons x rest ih =>
    by_cases hx : u.getName.getDB = x.getName.getDB
    · simp [UserSet.add, hx]
    · have hb : (u.getName.getDB == x.getName.getDB) = false := by simpa using hx
      simp only [UserSet.add, hb, Bool.false_eq_true, if_false, List.map_cons, ih,
        List.mem_cons, hx, false_or]
      split_ifs <;> simp

theorem atMostOnePerDB_add (L : UserSet) (u : User) (hinv : AtMostOnePerDB L) :
    AtMostOnePerDB (UserSet.add L u) := by
  unfold AtMostOnePerDB at hinv ⊢
  rw [map_getDB_add]
  split_ifs with h
  · exact hinv
  · exact List.Nodup.append hinv (List.nodup_singleton _) (by simpa using h)

theorem addAndAuthorizeUser_users_of_ok {σ : Type} (authMan : AuthorizationManager σ) (dir : σ)
    (s : AuthorizationSessionImpl) (userName : UserName) (u : User)
    (hacq : (authMan.acquireUser dir userName).1 = StatusWith.value u)
    (hok : (AuthorizationSessionImpl.addAndAuthorizeUser authMan dir s userName).1 =
      Outcome.returned Status.OK) :
    (AuthorizationSessionImpl.addAndAuthorizeUser authMan dir s userName).2.1 =
      (AuthorizationSessionImpl.clearImpersonatedUserData
        { s with _authenticatedUsers := UserSet.add s._authenticatedUsers u }
        )._buildAuthenticatedRolesVector := by
  simp only [AuthorizationSessionImpl.addAndAuthorizeUser, hacq] at hok ⊢
  cases hres : u.validateRestrictions with
  | raised => simp [hres] at hok
  | returned st =>
    cases st with
    | OK => simp [Status.isOK]
    | error code =>
      simp [hres, Status.isOK, AuthorizationManager.authenticationFailedStatus] at hok

/-- C13: after an `addAndAuthorizeUser` that acquired `u` and returned OK, on an identity
set with at most one identity per database, the identity set contains `u`, contains no
other identity of the database of `u`, and still contains every identity of another
database that it contained before. -/
theorem addAndAuthorizeUser_identitySet {σ : Type} (authMan : AuthorizationManager σ)
    (dir : σ) (s : AuthorizationSessionImpl) (userName : UserName) (u : User)
    (hinv : AtMostOnePerDB s._authenticatedUsers)
    (hacq : (authMan.acquireUser dir userName).1 = StatusWith.value u)
    (hok : (AuthorizationSessionImpl.addAndAuthorizeUser authMan dir s userName).1 =
      Outcome.returned Status.OK) :
    u ∈ (AuthorizationSessionImpl.addAndAuthorizeUser authMan dir s
      userName).2.1._authenticatedUsers ∧
    (∀ v ∈ (AuthorizationSessionImpl.addAndAuthorizeUser authMan dir s
        userName).2.1._authenticatedUsers,
      v.getName.getDB = u.getName.getDB → v = u) ∧
    (∀ v ∈ s._authenticatedUsers, v.getName.getDB ≠ u.getName.getDB →
      v ∈ (AuthorizationSessionImpl.addAndAuthorizeUser authMan dir s
        userName).2.1._authenticatedUsers) := by
  rw [addAndAuthorizeUser_users_of_ok authMan dir s userName u hacq hok]
  simp only [AuthorizationSessionImpl._buildAuthenticatedRolesVector,
    AuthorizationSessionImpl.clearImpersonatedUserData]
  exact ⟨mem_add_self _ u, eq_of_mem_add _ u hinv,
    fun v hv hne => mem_add_of_mem _ u v hv hne⟩

/-- Witness of C13: `p` of database `test` is authenticated on a session that holds a user
of `test` and a user of `other`; the user of `test` is replaced, the user of `other` is
kept. -/
theorem addAndAuthorizeUser_identitySet_witness :
    (AuthorizationSessionImpl.addAndAuthorizeUser fixedDirectory ()
      (sessionOf [dbUser "test" ∅, dbUser "other" ∅]) ⟨"p", "test"⟩).2.1._authenticatedUsers =
      [{ dbUser "test" ∅ with getName := ⟨"p", "test"⟩, getIndirectRoles := [⟨"r", "test"⟩] },
        dbUser "other" ∅] ∧
    dbUser "other" ∅ ∈ (AuthorizationSessionImpl.addAndAuthorizeUser fixedDirectory ()
      (sessionOf [dbUser "test" ∅, dbUser "other" ∅]) ⟨"p", "test"⟩).2.1._authenticatedUsers :=
  ⟨by decide,
    (addAndAuthorizeUser_identitySet fixedDirectory ()
      (sessionOf [dbUser "test" ∅, dbUser "other" ∅]) ⟨"p", "test"⟩
      { dbUser "test" ∅ with getName := ⟨"p", "test"⟩, getIndirectRoles := [⟨"r", "test"⟩] }
      (by decide) rfl (by decide)).2.2 (dbUser "other" ∅) (by decide) (by decide)⟩

theorem addAndAuthorizeUser_atMostOnePerDB {σ : Type} (authMan : AuthorizationManager σ)
    (dir : σ) (s : AuthorizationSessionImpl) (userName : UserName)
    (hinv : AtMostOnePerDB s._authenticatedUsers) :
    AtMostOnePerDB (AuthorizationSessionImpl.addAndAuthorizeUser authMan dir s
      userName).2.1._authenticatedUsers := by
  cases hacq : (authMan.acquireUser dir userName).1 with
  | error code => simpa [AuthorizationSessionImpl.addAndAuthorizeUser, hacq] using hinv
  | value user =>
    cases hres : user.validateRestrictions with
    | raised => simpa [AuthorizationSessionImpl.addAndAuthorizeUser, hacq, hres] using hinv
    | returned st =>
      cases st with
      | error code =>
        simpa [AuthorizationSessionImpl.addAndAuthorizeUser, hacq, hres, Status.isOK] using hinv
      | OK =>
        simpa [AuthorizationSessionImpl.addAndAuthorizeUser, hacq, hres, Status.isOK,
          AuthorizationSessionImpl._buildAuthenticatedRolesVector,
          AuthorizationSessionImpl.clearImpersonatedUserData] using
          atMostOnePerDB_add _ user hinv

theorem addAndAuthorizeUsers_preserves {σ : Type} (authMan : AuthorizationManager σ)
    (names : List UserName) :
    ∀ (dir : σ) (s : AuthorizationSessionImpl), AtMostOnePerDB s._authenticatedUsers →
      AtMostOnePerDB (addAndAuthorizeUsers authMan dir s names).1._authenticatedUsers := by
  induction names with
  | nil => intro dir s h; exact h
  | cons n rest ih =>
    intro dir s h
    simp only [addAndAuthorizeUsers]
    exact ih _ _ (addAndAuthorizeUser_atMostOnePerDB authMan dir s n h)

/-- C14: starting from a freshly constructed session, after any finite sequence of
`addAndAuthorizeUser` calls, whatever the names, the directory and the way each call
ends, the identity set contains at most one identity per database. -/
theorem addAndAuthorizeUsers_atMostOnePerDB {σ : Type} (authMan : AuthorizationManager σ)
    (dir : σ) (externalState : AuthzSessionExternalState) (names : List UserName) :
    AtMostOnePerDB (addAndAuthorizeUsers authMan dir
      (AuthorizationSessionImpl.create externalState) names).1._authenticatedUsers :=
  addAndAuthorizeUsers_preserves authMan names dir _ (by
    simp [AtMostOnePerDB, AuthorizationSessionImpl.create])

/-- Witness of C14: `p` and `q` of `test`, `x` (not found), `z` (restrictions raise) and
`p` of `other` are authenticated in turn on a fresh session; the identity set holds `q` of
`test` and `p` of `other`. -/
theorem addAndAuthorizeUsers_atMostOnePerDB_witness :
    AtMostOnePerDB (addAndAuthorizeUsers fixedDirectory ()
      (AuthorizationSessionImpl.create plainState)
      [⟨"p", "test"⟩, ⟨"q", "test"⟩, ⟨"x", "test"⟩, ⟨"z", "test"⟩,
        ⟨"p", "other"⟩]).1._authenticatedUsers ∧
    (addAndAuthorizeUsers fixedDirectory () (AuthorizationSessionImpl.create plainState)
      [⟨"p", "test"⟩, ⟨"q", "test"⟩, ⟨"x", "test"⟩, ⟨"z", "test"⟩,
        ⟨"p", "other"⟩]).1._authenticatedUsers.map (fun u => u.getName) =
      [⟨"q", "test"⟩, ⟨"p", "other"⟩] :=
  ⟨addAndAuthorizeUsers_atMostOnePerDB fixedDirectory () plainState
      [⟨"p", "test"⟩, ⟨"q", "test"⟩, ⟨"x", "test"⟩, ⟨"z", "test"⟩, ⟨"p", "other"⟩],
    by decide⟩

theorem removeByDBName_eq_filter (L : UserSet) (db : String) (hinv : AtMostOnePerDB L) :
    UserSet.removeByDBName L db = L.filter (fun u => u.getName.getDB != db) := by
  induction L with
  | nil => rfl
  | cons x rest ih =>
    simp only [AtMostOnePerDB, List.map_cons, List.nodup_cons, List.mem_map, not_exists,
      not_and] at hinv
    by_cases hx : x.getName.getDB = db
    · have hrest : rest.filter (fun u => u.getName.getDB != db) = rest := by
        rw [List.filter_eq_self]
        intro v hv
        have hne := hinv.1 v hv
        rw [hx] at hne
        simpa using hne
      simp [UserSet.removeByDBName, hx, hrest]
    · have hb : (x.getName.getDB == db) = false := by simpa using hx
      simp [UserSet.removeByDBName, hb, hx, ih hinv.2]

/-- C15: for every identity set with at most one identity per database and every database
name, after `logoutDatabase(db)` the identity set is the subsequence of the identities
whose database differs from `db`, in their order. -/
theorem logoutDatabase_identitySet (s : AuthorizationSessionImpl) (db : String)
    (hinv : AtMostOnePerDB s._authenticatedUsers) :
    (s.logoutDatabase db)._authenticatedUsers =
      s._authenticatedUsers.filter (fun u => u.getName.getDB != db) := by
  simp [AuthorizationSessionImpl.logoutDatabase,
    AuthorizationSessionImpl._buildAuthenticatedRolesVector,
    AuthorizationSessionImpl.clearImpersonatedUserData, removeByDBName_eq_filter _ db hinv]

/-- Witness of C15: logging out of `test` removes the user of `test` and keeps the users
of `admin` and `other` in their order. -/
theorem logoutDatabase_identitySet_witness :
    ((sessionOf [dbUser "admin" ∅, dbUser "test" ∅, dbUser "other" ∅]).logoutDatabase
      "test")._authenticatedUsers = [dbUser "admin" ∅, dbUser "other" ∅] :=
  (logoutDatabase_identitySet (sessionOf [dbUser "admin" ∅, dbUser "test" ∅, dbUser "other" ∅])
    "test" (by decide)).trans (by decide)

/-! ## The role names and the impersonation data -/

theorem pushIndirectRoles_eq (roles acc : List RoleName) :
    AuthorizationSessionImpl.pushIndirectRoles roles acc = acc ++ roles := by
  induction roles generalizing acc with
  | nil => simp [AuthorizationSessionImpl.pushIndirectRoles]
  | cons r rest ih => simp [AuthorizationSessionImpl.pushIndirectRoles, ih]

theorem pushUsersRoles_eq (L : List User) (acc : List RoleName) :
    AuthorizationSessionImpl.pushUsersRoles L acc = acc ++ indirectRoleNames L := by
  induction L generalizing acc with
  | nil => simp [AuthorizationSessionImpl.pushUsersRoles, indirectRoleNames]
  | cons u rest ih =>
    simp [AuthorizationSessionImpl.pushUsersRoles, ih, pushIndirectRoles_eq, indirectRoleNames]

theorem buildAuthenticatedRolesVector_roleNames (s : AuthorizationSessionImpl) :
    s._buildAuthenticatedRolesVector.getAuthenticatedRoleNames =
      indirectRoleNames s._buildAuthenticatedRolesVector._authenticatedUsers := by
  simp [AuthorizationSessionImpl._buildAuthenticatedRolesVector,
    AuthorizationSessionImpl.getAuthenticatedRoleNames, pushUsersRoles_eq]

/-- C16: the role names returned by `getAuthenticatedRoleNames` are the indirect role
names of the identities of the identity set, concatenated in its order. This holds after
construction, is kept by `addAndAuthorizeUser` however the call ends, and holds after
`logoutDatabase`, after `grantInternalAuthorization` and after the refresh, so an
identity that the refresh removes has no entry left. -/
theorem authenticatedRoleNames_invariant {σ : Type} (authMan : AuthorizationManager σ) :
    (∀ externalState : AuthzSessionExternalState,
      (AuthorizationSessionImpl.create externalState).getAuthenticatedRoleNames =
        indirectRoleNames (AuthorizationSessionImpl.create externalState)._authenticatedUsers) ∧
    (∀ (dir : σ) (s : AuthorizationSessionImpl) (userName : UserName),
      s.getAuthenticatedRoleNames = indirectRoleNames s._authenticatedUsers →
      (AuthorizationSessionImpl.addAndAuthorizeUser authMan dir s
          userName).2.1.getAuthenticatedRoleNames =
        indirectRoleNames (AuthorizationSessionImpl.addAndAuthorizeUser authMan dir s
          userName).2.1._authenticatedUsers) ∧
    (∀ (s : AuthorizationSessionImpl) (db : String),
      (s.logoutDatabase db).getAuthenticatedRoleNames =
        indirectRoleNames (s.logoutDatabase db)._authenticatedUsers) ∧
    (∀ (s : AuthorizationSessionImpl) (internalUser : User),
      (s.grantInternalAuthorization internalUser).getAuthenticatedRoleNames =
        indirectRoleNames (s.grantInternalAuthorization internalUser)._authenticatedUsers) ∧
    (∀ (fuel : Nat) (dir : σ) (s : AuthorizationSessionImpl),
      s._authenticatedUsers.length ≤ fuel →
      ∃ r : AuthorizationSessionImpl × σ,
        AuthorizationSessionImpl._refreshUserInfoAsNeeded authMan fuel dir s = some r ∧
        r.1._authenticatedUsers = (refreshPass authMan dir s._authenticatedUsers).1 ∧
        r.1.getAuthenticatedRoleNames = indirectRoleNames r.1._authenticatedUsers) := by
  refine ⟨?_, ?_, ?_, ?_, ?_⟩
  · intro externalState
    simp [AuthorizationSessionImpl.create, AuthorizationSessionImpl.getAuthenticatedRoleNames,
      indirectRoleNames]
  · intro dir s userName h
    cases hacq : (authMan.acquireUser dir userName).1 with
    | error code => simpa [AuthorizationSessionImpl.addAndAuthorizeUser, hacq] using h
    | value user =>
      cases hres : user.validateRestrictions with
      | raised => simpa [AuthorizationSessionImpl.addAndAuthorizeUser, hacq, hres] using h
      | returned st =>
        cases st with
        | error code =>
          simpa [AuthorizationSessionImpl.addAndAuthorizeUser, hacq, hres, Status.isOK] using h
        | OK =>
          simp only [AuthorizationSessionImpl.addAndAuthorizeUser, hacq, hres, Status.isOK,
            Bool.not_true, Bool.false_eq_true, if_false]
          exact buildAuthenticatedRolesVector_roleNames _
  · intro s db
    exact buildAuthenticatedRolesVector_roleNames _
  · intro s internalUser
    exact buildAuthenticatedRolesVector_roleNames _
  · intro fuel dir s hf
    have h := refreshLoop_eq_refreshPass authMan s._authenticatedUsers [] dir fuel hf
    simp only [List.nil_append, List.length_nil] at h
    refine ⟨(({ s with _authenticatedUsers :=
        (refreshPass authMan dir s._authenticatedUsers).1 })._buildAuthenticatedRolesVector,
      (refreshPass authMan dir s._authenticatedUsers).2), ?_, ?_, ?_⟩
    · simp only [AuthorizationSessionImpl._refreshUserInfoAsNeeded, h]
    · simp [AuthorizationSessionImpl._buildAuthenticatedRolesVector]
    · exact buildAuthenticatedRolesVector_roleNames _

/-- Witness of C16: after `p` of `test` is authenticated on a fresh session, the role names
are the indirect role of `p`; after the logout of `test` they are empty. -/
theorem authenticatedRoleNames_invariant_witness :
    (AuthorizationSessionImpl.addAndAuthorizeUser fixedDirectory ()
      (AuthorizationSessionImpl.create plainState)
      ⟨"p", "test"⟩).2.1.getAuthenticatedRoleNames = [⟨"r", "test"⟩] ∧
    ((AuthorizationSessionImpl.addAndAuthorizeUser fixedDirectory ()
      (AuthorizationSessionImpl.create plainState)
      ⟨"p", "test"⟩).2.1.logoutDatabase "test").getAuthenticatedRoleNames = [] :=
  ⟨((authenticatedRoleNames_invariant fixedDirectory).2.1 ()
      (AuthorizationSessionImpl.create plainState) ⟨"p", "test"⟩
      ((authenticatedRoleNames_invariant fixedDirectory).1 plainState)).trans (by decide),
    ((authenticatedRoleNames_invariant fixedDirectory).2.2.1
      (AuthorizationSessionImpl.addAndAuthorizeUser fixedDirectory ()
        (AuthorizationSessionImpl.create plainState) ⟨"p", "test"⟩).2.1 "test").trans
      (by decide)⟩

/-- C17: after an `addAndAuthorizeUser` that returns OK and after every `logoutDatabase`,
also one that removes no identity, the impersonation data is cleared, whatever the
session held before: `isImpersonating()` is false and the impersonated user names and
role names are empty. -/
theorem impersonation_cleared {σ : Type} (authMan : AuthorizationManager σ) (dir : σ)
    (s : AuthorizationSessionImpl) :
    (∀ userName : UserName,
      (AuthorizationSessionImpl.addAndAuthorizeUser authMan dir s userName).1 =
        Outcome.returned Status.OK →
      (AuthorizationSessionImpl.addAndAuthorizeUser authMan dir s
          userName).2.1.isImpersonating = false ∧
      (AuthorizationSessionImpl.addAndAuthorizeUser authMan dir s
          userName).2.1.getImpersonatedUserNames = [] ∧
      (AuthorizationSessionImpl.addAndAuthorizeUser authMan dir s
          userName).2.1.getImpersonatedRoleNames = []) ∧
    (∀ db : String,
      (s.logoutDatabase db).isImpersonating = false ∧
      (s.logoutDatabase db).getImpersonatedUserNames = [] ∧
      (s.logoutDatabase db).getImpersonatedRoleNames = []) := by
  refine ⟨?_, ?_⟩
  · intro userName hok
    cases hacq : (authMan.acquireUser dir userName).1 with
    | error code => simp [AuthorizationSessionImpl.addAndAuthorizeUser, hacq] at hok
    | value user =>
      rw [addAndAuthorizeUser_users_of_ok authMan dir s userName user hacq hok]
      simp [AuthorizationSessionImpl._buildAuthenticatedRolesVector,
        AuthorizationSessionImpl.clearImpersonatedUserData,
        AuthorizationSessionImpl.isImpersonating,
        AuthorizationSessionImpl.getImpersonatedUserNames,
        AuthorizationSessionImpl.getImpersonatedRoleNames]
  · intro db
    simp [AuthorizationSessionImpl.logoutDatabase,
      AuthorizationSessionImpl._buildAuthenticatedRolesVector,
      AuthorizationSessionImpl.clearImpersonatedUserData,
      AuthorizationSessionImpl.isImpersonating,
      AuthorizationSessionImpl.getImpersonatedUserNames,
      AuthorizationSessionImpl.getImpersonatedRoleNames]

/-- Witness of C17: a session that impersonates `i` with the role `r` is not impersonating
after `p` is authenticated, and not after a logout of `nowhere`, which removes no
identity. -/
theorem impersonation_cleared_witness :
    (AuthorizationSessionImpl.addAndAuthorizeUser fixedDirectory ()
      ((sessionOf [dbUser "test" ∅]).setImpersonatedUserData [⟨"i", "test"⟩] [⟨"r", "test"⟩])
      ⟨"p", "other"⟩).2.1.isImpersonating = false ∧
    (((sessionOf [dbUser "test" ∅]).setImpersonatedUserData [⟨"i", "test"⟩]
      [⟨"r", "test"⟩]).logoutDatabase "nowhere").getImpersonatedUserNames = [] :=
  ⟨((impersonation_cleared fixedDirectory ()
      ((sessionOf [dbUser "test" ∅]).setImpersonatedUserData [⟨"i", "test"⟩]
        [⟨"r", "test"⟩])).1 ⟨"p", "other"⟩ (by decide)).1,
    ((impersonation_cleared fixedDirectory ()
      ((sessionOf [dbUser "test" ∅]).setImpersonatedUserData [⟨"i", "test"⟩]
        [⟨"r", "test"⟩])).2 "nowhere").2.1⟩

/-! ## The default privileges -/

theorem getDefaultPrivileges_of_flags (s : AuthorizationSessionImpl) (l a : Bool)
    (hl : s._externalState.shouldAllowLocalhost = l)
    (ha : s._externalState.serverIsArbiter = a) :
    s.getDefaultPrivileges =
      (AuthorizationSessionImpl.create ⟨false, l, a⟩).getDefaultPrivileges := by
  simp [AuthorizationSessionImpl.getDefaultPrivileges, AuthorizationSessionImpl.create, hl, ha]

theorem getDefaultPrivileges_localhost :
    (AuthorizationSessionImpl.create ⟨false, true, false⟩).getDefaultPrivileges =
      [⟨ResourcePattern.forDatabaseName "admin",
          {ActionType.createUser, ActionType.grantRole}⟩,
        ⟨ResourcePattern.forDatabaseName "$external", {ActionType.createUser}⟩,
        ⟨ResourcePattern.forClusterResource,
          {ActionType.addShard, ActionType.replSetConfigure,
            ActionType.replSetGetStatus}⟩] := by
  simp only [AuthorizationSessionImpl.getDefaultPrivileges, AuthorizationSessionImpl.create,
    Privilege.addPrivilegeToPrivilegeVector, Privilege.ofAction, ActionSet.addAction,
    ADMIN_DBNAME, if_true, Bool.false_eq_true, if_false, reduceCtorEq,
    ResourcePattern.forDatabaseName.injEq, String.reduceEq, List.cons.injEq, Privilege.mk.injEq,
    true_and, and_true]
  refine ⟨?_, ?_, ?_⟩ <;> (ext a; simp <;> tauto)

theorem getDefaultPrivileges_localhost_arbiter :
    (AuthorizationSessionImpl.create ⟨false, true, true⟩).getDefaultPrivileges =
      [⟨ResourcePattern.forDatabaseName "admin",
          {ActionType.createUser, ActionType.grantRole}⟩,
        ⟨ResourcePattern.forDatabaseName "$external", {ActionType.createUser}⟩,
        ⟨ResourcePattern.forClusterResource,
          {ActionType.addShard, ActionType.replSetConfigure, ActionType.replSetGetStatus,
            ActionType.getCmdLineOpts, ActionType.getParameter, ActionType.serverStatus,
            ActionType.shutdown}⟩] := by
  simp only [AuthorizationSessionImpl.getDefaultPrivileges, AuthorizationSessionImpl.create,
    Privilege.addPrivilegeToPrivilegeVector, Privilege.ofAction, ActionSet.addAction,
    ADMIN_DBNAME, if_true, Bool.false_eq_true, if_false, reduceCtorEq,
    ResourcePattern.forDatabaseName.injEq, String.reduceEq, List.cons.injEq, Privilege.mk.injEq,
    true_and, and_true]
  refine ⟨?_, ?_, ?_⟩ <;> (ext a; simp <;> tauto)

/-- C18: `getDefaultPrivileges()` is empty when the localhost exception is inactive; when
it is active and the server is not an arbiter, it is exactly the three privileges
`(Database(admin), {createUser, grantRole})`, `(Database($external), {createUser})` and
`(ClusterResource, {addShard, replSetConfigure, replSetGetStatus})`. -/
theorem getDefaultPrivileges_bootstrap (s : AuthorizationSessionImpl) :
    (s._externalState.shouldAllowLocalhost = false → s.getDefaultPrivileges = []) ∧
    (s._externalState.shouldAllowLocalhost = true → s._externalState.serverIsArbiter = false →
      s.getDefaultPrivileges =
        [⟨ResourcePattern.forDatabaseName "admin",
            {ActionType.createUser, ActionType.grantRole}⟩,
          ⟨ResourcePattern.forDatabaseName "$external", {ActionType.createUser}⟩,
          ⟨ResourcePattern.forClusterResource,
            {ActionType.addShard, ActionType.replSetConfigure,
              ActionType.replSetGetStatus}⟩]) := by
  refine ⟨?_, ?_⟩
  · intro h
    rw [getDefaultPrivileges_of_flags s false s._externalState.serverIsArbiter h rfl]
    cases s._externalState.serverIsArbiter <;> rfl
  · intro h1 h2
    rw [getDefaultPrivileges_of_flags s true false h1 h2]
    exact getDefaultPrivileges_localhost

/-- Witness of C18: the default privileges of a session on a server that is not an arbiter,
with the localhost exception active and with it inactive. -/
theorem getDefaultPrivileges_bootstrap_witness :
    (AuthorizationSessionImpl.create ⟨false, false, false⟩).getDefaultPrivileges = [] ∧
    (AuthorizationSessionImpl.create ⟨false, true, false⟩).getDefaultPrivileges =
      [⟨ResourcePattern.forDatabaseName "admin",
          {ActionType.createUser, ActionType.grantRole}⟩,
        ⟨ResourcePattern.forDatabaseName "$external", {ActionType.createUser}⟩,
        ⟨ResourcePattern.forClusterResource,
          {ActionType.addShard, ActionType.replSetConfigure, ActionType.replSetGetStatus}⟩] :=
  ⟨(getDefaultPrivileges_bootstrap (AuthorizationSessionImpl.create ⟨false, false, false⟩)).1 rfl,
    (getDefaultPrivileges_bootstrap (AuthorizationSessionImpl.create ⟨false, true, false⟩)).2
      rfl rfl⟩

/-- C19, as stated, fails: on an arbiter with the localhost exception active, the action
set of the cluster privilege is not the six actions `addShard`, `replSetConfigure`,
`replSetGetStatus`, `getParameter`, `serverStatus`, `shutdown`; it also holds
`getCmdLineOpts`. -/
theorem getDefaultPrivileges_arbiter_getCmdLineOpts :
    (AuthorizationSessionImpl.create ⟨false, true, true⟩).getDefaultPrivileges ≠
      [⟨ResourcePattern.forDatabaseName "admin",
          {ActionType.createUser, ActionType.grantRole}⟩,
        ⟨ResourcePattern.forDatabaseName "$external", {ActionType.createUser}⟩,
        ⟨ResourcePattern.forClusterResource,
          {ActionType.addShard, ActionType.replSetConfigure, ActionType.replSetGetStatus,
            ActionType.getParameter, ActionType.serverStatus, ActionType.shutdown}⟩] ∧
    (∃ p ∈ (AuthorizationSessionImpl.create ⟨false, true, true⟩).getDefaultPrivileges,
      p.getResourcePattern = ResourcePattern.forClusterResource ∧
        ActionType.getCmdLineOpts ∈ p.getActions) := by
  rw [getDefaultPrivileges_localhost_arbiter]
  refine ⟨?_, ?_⟩
  · intro h
    simp only [List.cons.injEq, Privilege.mk.injEq, true_and, and_true] at h
    have hmem := Finset.ext_iff.mp h ActionType.getCmdLineOpts
    simp at hmem
  · exact ⟨_, List.mem_cons_of_mem _ (List.mem_cons_of_mem _ (List.mem_cons_self _ _)), rfl,
      by simp⟩

/-- C19, amended: when the localhost exception is active and the server is an arbiter,
`getDefaultPrivileges()` is the privileges of the admin and `$external` databases of the
other case and a cluster privilege whose action set is `addShard`, `replSetConfigure`,
`replSetGetStatus` and the four arbiter actions `getCmdLineOpts`, `getParameter`,
`serverStatus`, `shutdown`. -/
theorem getDefaultPrivileges_arbiter (s : AuthorizationSessionImpl)
    (hl : s._externalState.shouldAllowLocalhost = true)
    (ha : s._externalState.serverIsArbiter = true) :
    s.getDefaultPrivileges =
      [⟨ResourcePattern.forDatabaseName "admin",
          {ActionType.createUser, ActionType.grantRole}⟩,
        ⟨ResourcePattern.forDatabaseName "$external", {ActionType.createUser}⟩,
        ⟨ResourcePattern.forClusterResource,
          {ActionType.addShard, ActionType.replSetConfigure, ActionType.replSetGetStatus,
            ActionType.getCmdLineOpts, ActionType.getParameter, ActionType.serverStatus,
            ActionType.shutdown}⟩] := by
  rw [getDefaultPrivileges_of_flags s true true hl ha]
  exact getDefaultPrivileges_localhost_arbiter

/-- Witness of C19, amended: the default privileges of an arbiter with the localhost
exception active. -/
theorem getDefaultPrivileges_arbiter_witness :
    (AuthorizationSessionImpl.create ⟨false, true, true⟩).getDefaultPrivileges =
      [⟨ResourcePattern.forDatabaseName "admin",
          {ActionType.createUser, ActionType.grantRole}⟩,
        ⟨ResourcePattern.forDatabaseName "$external", {ActionType.createUser}⟩,
        ⟨ResourcePattern.forClusterResource,
          {ActionType.addShard, ActionType.replSetConfigure, ActionType.replSetGetStatus,
            ActionType.getCmdLineOpts, ActionType.getParameter, ActionType.serverStatus,
            ActionType.shutdown}⟩] :=
  getDefaultPrivileges_arbiter (AuthorizationSessionImpl.create ⟨false, true, true⟩) rfl rfl

/-! ## The cursor session check -/

/-- C20: `checkCursorSessionPrivilege` returns an `Unauthorized` status exactly when
authorization is enabled, the cursor's session id differs from the one of the operation
context (as optional values), some identity is authenticated, and the `impersonate`
privilege on the cluster is not authorized; in every other case it returns OK. -/
theorem checkCursorSessionPrivilege_iff {σ : Type} (authMan : AuthorizationManager σ)
    (s : AuthorizationSessionImpl) (opCtxSessionId cursorSessionId : Option LogicalSessionId) :
    (AuthorizationSessionImpl.checkCursorSessionPrivilege authMan s opCtxSessionId
        cursorSessionId = Status.error ErrorCodes.Unauthorized ↔
      (authMan.isAuthEnabled = true ∧ cursorSessionId ≠ opCtxSessionId ∧
        s._authenticatedUsers ≠ [] ∧
        s.isAuthorizedForPrivilege
          (Privilege.ofAction ResourcePattern.forClusterResource ActionType.impersonate) =
            false)) ∧
    (¬ (authMan.isAuthEnabled = true ∧ cursorSessionId ≠ opCtxSessionId ∧
        s._authenticatedUsers ≠ [] ∧
        s.isAuthorizedForPrivilege
          (Privilege.ofAction ResourcePattern.forClusterResource ActionType.impersonate) =
            false) →
      AuthorizationSessionImpl.checkCursorSessionPrivilege authMan s opCtxSessionId
        cursorSessionId = Status.OK) := by
  unfold AuthorizationSessionImpl.checkCursorSessionPrivilege
  cases h1 : authMan.isAuthEnabled <;>
    by_cases h2 : cursorSessionId = opCtxSessionId <;>
    cases h3 : s._authenticatedUsers <;>
    cases h4 : s.isAuthorizedForPrivilege
      (Privilege.ofAction ResourcePattern.forClusterResource ActionType.impersonate) <;>
    simp [AuthorizationSessionImpl.isAuthenticated, h2, h3]

/-- Witness of C20: with authorization enabled and a user without the `impersonate`
privilege, a cursor of another session is refused, also a cursor without session; the
cursor of the same session is allowed, and a session without user is allowed. -/
theorem checkCursorSessionPrivilege_iff_witness :
    AuthorizationSessionImpl.checkCursorSessionPrivilege fixedDirectory
      (sessionOf [dbUser "test" ∅]) (some ⟨1⟩) (some ⟨2⟩) =
        Status.error ErrorCodes.Unauthorized ∧
    AuthorizationSessionImpl.checkCursorSessionPrivilege fixedDirectory
      (sessionOf [dbUser "test" ∅]) (some ⟨1⟩) none = Status.error ErrorCodes.Unauthorized ∧
    AuthorizationSessionImpl.checkCursorSessionPrivilege fixedDirectory
      (sessionOf [dbUser "test" ∅]) (some ⟨1⟩) (some ⟨1⟩) = Status.OK ∧
    AuthorizationSessionImpl.checkCursorSessionPrivilege fixedDirectory
      (sessionOf []) (some ⟨1⟩) (some ⟨2⟩) = Status.OK :=
  ⟨(checkCursorSessionPrivilege_iff fixedDirectory (sessionOf [dbUser "test" ∅]) (some ⟨1⟩)
      (some ⟨2⟩)).1.mpr (by decide),
    (checkCursorSessionPrivilege_iff fixedDirectory (sessionOf [dbUser "test" ∅]) (some ⟨1⟩)
      none).1.mpr (by decide),
    (checkCursorSessionPrivilege_iff fixedDirectory (sessionOf [dbUser "test" ∅]) (some ⟨1⟩)
      (some ⟨1⟩)).2 (by decide),
    (checkCursorSessionPrivilege_iff fixedDirectory (sessionOf []) (some ⟨1⟩)
      (some ⟨2⟩)).2 (by decide)⟩

/-! ## Sessions acting for the same user -/

theorem equalsSomeName_iff (name : UserName) (opNames : List UserName) :
    AuthorizationSessionImpl.equalsSomeName name opNames = true ↔ name ∈ opNames := by
  induction opNames with
  | nil => simp [AuthorizationSessionImpl.equalsSomeName]
  | cons n rest ih =>
    by_cases h : name = n
    · simp [AuthorizationSessionImpl.equalsSomeName, h]
    · have hb : (name == n) = false := by simpa using h
      simp [AuthorizationSessionImpl.equalsSomeName, hb, h, ih]

theorem someNameInCommon_iff (opNames names : List UserName) :
    AuthorizationSessionImpl.someNameInCommon opNames names = true ↔
      ∃ n, n ∈ names ∧ n ∈ opNames := by
  induction names with
  | nil => simp [AuthorizationSessionImpl.someNameInCommon]
  | cons n rest ih =>
    cases h : AuthorizationSessionImpl.equalsSomeName n opNames with
    | true =>
      simp only [AuthorizationSessionImpl.someNameInCommon, h, if_true, true_iff]
      exact ⟨n, List.mem_cons_self _ _, (equalsSomeName_iff n opNames).mp h⟩
    | false =>
      have hn : n ∉ opNames := fun hm => by
        rw [(equalsSomeName_iff n opNames).mpr hm] at h
        cases h
      simp only [AuthorizationSessionImpl.someNameInCommon, h, Bool.false_eq_true, if_false, ih,
        List.mem_cons]
      constructor
      · rintro ⟨m, hm, hmo⟩
        exact ⟨m, Or.inr hm, hmo⟩
      · rintro ⟨m, hm | hm, hmo⟩
        · exact absurd (hm ▸ hmo) hn
        · exact ⟨m, hm, hmo⟩

/-- C21: `isCoauthorizedWithClient` is true exactly when the effective names of the two
sessions have a user name in common; the effective names of a session are its
impersonated user names when it is impersonating and the names of its authenticated
users otherwise. -/
theorem isCoauthorizedWithClient_iff (s other : AuthorizationSessionImpl) :
    s.isCoauthorizedWithClient other = true ↔
      ∃ n : UserName,
        n ∈ (if s.isImpersonating = true then s.getImpersonatedUserNames
          else s._authenticatedUsers.map (fun u => u.getName)) ∧
        n ∈ (if other.isImpersonating = true then other.getImpersonatedUserNames
          else other._authenticatedUsers.map (fun u => u.getName)) := by
  simp only [AuthorizationSessionImpl.isCoauthorizedWithClient, someNameInCommon_iff,
    AuthorizationSessionImpl.getUserNames, AuthorizationSessionImpl.getAuthenticatedUserNames,
    UserSet.getNames]

/-- Witness of C21: two sessions that impersonate disjoint sets of names are not
coauthorized, two that impersonate overlapping sets are; the authenticated users, the
same in both sessions, do not count while a session is impersonating. -/
theorem isCoauthorizedWithClient_iff_witness :
    ((sessionOf [dbUser "test" ∅]).setImpersonatedUserData
        [⟨"a", "test"⟩, ⟨"b", "test"⟩] []).isCoauthorizedWithClient
      ((sessionOf [dbUser "test" ∅]).setImpersonatedUserData [⟨"c", "test"⟩] []) = false ∧
    ((sessionOf [dbUser "test" ∅]).setImpersonatedUserData
        [⟨"a", "test"⟩, ⟨"b", "test"⟩] []).isCoauthorizedWithClient
      ((sessionOf []).setImpersonatedUserData [⟨"c", "test"⟩, ⟨"b", "test"⟩] []) = true :=
  ⟨by
      rw [Bool.eq_false_iff, Ne, isCoauthorizedWithClient_iff]
      decide,
    (isCoauthorizedWithClient_iff _ _).mpr ⟨⟨"b", "test"⟩, by decide, by decide⟩⟩

/-- C22: `isCoauthorizedWith(names)` is true when authorization is not enabled; with
authorization enabled it is true when `names` is empty and no user is authenticated, and
otherwise true exactly when a name of `names` is the name of an authenticated user. The
impersonation data is not read. -/
theorem isCoauthorizedWith_iff {σ : Type} (authMan : AuthorizationManager σ)
    (s : AuthorizationSessionImpl) (names : List UserName) :
    (authMan.isAuthEnabled = false → s.isCoauthorizedWith authMan names = true) ∧
    (authMan.isAuthEnabled = true → names = [] → s._authenticatedUsers = [] →
      s.isCoauthorizedWith authMan names = true) ∧
    (authMan.isAuthEnabled = true → ¬ (names = [] ∧ s._authenticatedUsers = []) →
      (s.isCoauthorizedWith authMan names = true ↔
        ∃ n ∈ names, ∃ u ∈ s._authenticatedUsers, u.getName = n)) := by
  refine ⟨?_, ?_, ?_⟩
  · intro h
    simp [AuthorizationSessionImpl.isCoauthorizedWith, h]
  · intro h hn hu
    simp [AuthorizationSessionImpl.isCoauthorizedWith, h, hn, hu,
      AuthorizationSessionImpl.isAuthenticated]
  · intro h hne
    have hcond : (names.isEmpty && !s.isAuthenticated) = false := by
      cases hn : names with
      | nil =>
        cases hu : s._authenticatedUsers with
        | nil => exact absurd ⟨hn, hu⟩ hne
        | cons u rest => simp [AuthorizationSessionImpl.isAuthenticated, hu]
      | cons n rest => simp
    simp only [AuthorizationSessionImpl.isCoauthorizedWith, h, Bool.not_true, Bool.false_eq_true,
      if_false, hcond, someNameInCommon_iff, AuthorizationSessionImpl.getAuthenticatedUserNames,
      UserSet.getNames, List.mem_map]

/-- Witness of C22: with authorization enabled, the empty sequence is coauthorized with a
session without user and not with a session of `u`; the name of `u` is coauthorized with
the session of `u`, also while that session impersonates someone else. -/
theorem isCoauthorizedWith_iff_witness :
    (sessionOf []).isCoauthorizedWith fixedDirectory [] = true ∧
    (sessionOf [dbUser "test" ∅]).isCoauthorizedWith fixedDirectory [] = false ∧
    ((sessionOf [dbUser "test" ∅]).setImpersonatedUserData
      [⟨"i", "test"⟩] []).isCoauthorizedWith fixedDirectory [⟨"u", "test"⟩] = true :=
  ⟨(isCoauthorizedWith_iff fixedDirectory (sessionOf []) []).2.1 rfl rfl rfl,
    by
      rw [Bool.eq_false_iff, Ne,
        (isCoauthorizedWith_iff fixedDirectory (sessionOf [dbUser "test" ∅]) []).2.2 rfl
          (by decide)]
      decide,
    ((isCoauthorizedWith_iff fixedDirectory
      ((sessionOf [dbUser "test" ∅]).setImpersonatedUserData [⟨"i", "test"⟩] [])
      [⟨"u", "test"⟩]).2.2 rfl (by decide)).mpr
      ⟨⟨"u", "test"⟩, by decide, dbUser "test" ∅, by decide, rfl⟩⟩

/-! ## Role creation, self-service changes and namespace elements -/

theorem someUserHasRole_iff (roleName : RoleName) (L : List User) :
    AuthorizationSessionImpl.someUserHasRole roleName L = true ↔
      ∃ u ∈ L, u.hasRole roleName = true := by
  induction L with
  | nil => simp [AuthorizationSessionImpl.someUserHasRole]
  | cons u rest ih =>
    cases h : u.hasRole roleName <;>
      simp [AuthorizationSessionImpl.someUserHasRole, h, ih]

/-- C23: `isAuthorizedToCreateRole(role)` is true when `createRole` on the database of the
role is authorized; otherwise, when the localhost exception is active, it is true
exactly when some authenticated user has the role; otherwise it is false. -/
theorem isAuthorizedToCreateRole_cases (s : AuthorizationSessionImpl) (roleName : RoleName) :
    (s.isAuthorizedForActionsOnResource (ResourcePattern.forDatabaseName roleName.getDB)
        ActionType.createRole = true → s.isAuthorizedToCreateRole roleName = true) ∧
    (s.isAuthorizedForActionsOnResource (ResourcePattern.forDatabaseName roleName.getDB)
        ActionType.createRole = false → s._externalState.shouldAllowLocalhost = true →
      (s.isAuthorizedToCreateRole roleName = true ↔
        ∃ u ∈ s._authenticatedUsers, u.hasRole roleName = true)) ∧
    (s.isAuthorizedForActionsOnResource (ResourcePattern.forDatabaseName roleName.getDB)
        ActionType.createRole = false → s._externalState.shouldAllowLocalhost = false →
      s.isAuthorizedToCreateRole roleName = false) := by
  refine ⟨?_, ?_, ?_⟩
  · intro h
    simp [AuthorizationSessionImpl.isAuthorizedToCreateRole, h]
  · intro h hl
    simp [AuthorizationSessionImpl.isAuthorizedToCreateRole, h, hl, someUserHasRole_iff]
  · intro h hl
    simp [AuthorizationSessionImpl.isAuthorizedToCreateRole, h, hl]

/-- Witness of C23: with the localhost exception active, a user that has the role `ops` of
`test` without any grant may create it, and may not create the role `dev`; with the
exception inactive the same user may not create `ops`. -/
theorem isAuthorizedToCreateRole_cases_witness :
    ({ sessionOf [{ dbUser "test" ∅ with getRoles := [⟨"ops", "test"⟩] }] with
      _externalState := ⟨false, true, false⟩ }).isAuthorizedToCreateRole ⟨"ops", "test"⟩ =
        true ∧
    ({ sessionOf [{ dbUser "test" ∅ with getRoles := [⟨"ops", "test"⟩] }] with
      _externalState := ⟨false, true, false⟩ }).isAuthorizedToCreateRole ⟨"dev", "test"⟩ =
        false ∧
    (sessionOf [{ dbUser "test" ∅ with getRoles := [⟨"ops", "test"⟩] }]).isAuthorizedToCreateRole
      ⟨"ops", "test"⟩ = false :=
  ⟨((isAuthorizedToCreateRole_cases _ ⟨"ops", "test"⟩).2.1 (by decide) rfl).mpr
      ⟨_, List.mem_cons_self _ _, by decide⟩,
    by
      rw [Bool.eq_false_iff, Ne,
        (isAuthorizedToCreateRole_cases _ ⟨"dev", "test"⟩).2.1 (by decide) rfl]
      decide,
    (isAuthorizedToCreateRole_cases _ ⟨"ops", "test"⟩).2.2 (by decide) rfl⟩

theorem mem_addActionsOfUser (u : User) (l : List ResourcePattern) (acc : ActionSet)
    (a : ActionType) :
    a ∈ AuthorizationSessionImpl.addActionsOfUser u l acc ↔
      a ∈ acc ∨ ∃ r ∈ l, a ∈ u.getActionsForResource r := by
  induction l generalizing acc with
  | nil => simp [AuthorizationSessionImpl.addActionsOfUser]
  | cons r rest ih =>
    simp only [AuthorizationSessionImpl.addActionsOfUser, ih,
      ActionSet.addAllActionsFromSet, Finset.mem_union, List.mem_cons, exists_eq_or_imp,
      or_assoc]

theorem lookup_eq_some_of_mem (L : UserSet) (hinv : AtMostOnePerDB L) (u : User)
    (hu : u ∈ L) : UserSet.lookup L u.getName = some u := by
  induction L with
  | nil => cases hu
  | cons x rest ih =>
    simp only [AtMostOnePerDB, List.map_cons, List.nodup_cons, List.mem_map, not_exists,
      not_and] at hinv
    rcases List.mem_cons.mp hu with rfl | hu
    · simp [UserSet.lookup]
    · have hne : x.getName ≠ u.getName := fun h =>
        hinv.1 u hu (by rw [h])
      have hb : (x.getName == u.getName) = false := by simpa using hne
      have ihu := ih hinv.2 hu
      simp only [UserSet.lookup] at ihu ⊢
      simp [List.find?_cons, hb, ihu]

/-- C24: `isAuthorizedToChangeAsUser(userName, action)` is true exactly when the user
looked up by `userName` exists and `action` is among that user's actions for some entry
of the search list of `Database(userName.db)`; the looked up user is an authenticated
user of that name, and the result is false when no authenticated user has the name. On
an identity set with at most one identity per database, it is true exactly when some
authenticated user of that name has the action. Other users and the default privileges
do not enter. -/
theorem isAuthorizedToChangeAsUser_iff (s : AuthorizationSessionImpl) (userName : UserName)
    (action : ActionType) :
    (s.isAuthorizedToChangeAsUser userName action = true ↔
      ∃ u, s.lookupUser userName = some u ∧
        ∃ r ∈ buildResourceSearchList (ResourcePattern.forDatabaseName userName.getDB),
          action ∈ u.getActionsForResource r) ∧
    (∀ u, s.lookupUser userName = some u →
      u ∈ s._authenticatedUsers ∧ u.getName = userName) ∧
    ((∀ u ∈ s._authenticatedUsers, u.getName ≠ userName) →
      s.isAuthorizedToChangeAsUser userName action = false) ∧
    (AtMostOnePerDB s._authenticatedUsers →
      (s.isAuthorizedToChangeAsUser userName action = true ↔
        ∃ u ∈ s._authenticatedUsers, u.getName = userName ∧
          ∃ r ∈ buildResourceSearchList (ResourcePattern.forDatabaseName userName.getDB),
            action ∈ u.getActionsForResource r)) := by
  have hmain : s.isAuthorizedToChangeAsUser userName action = true ↔
      ∃ u, s.lookupUser userName = some u ∧
        ∃ r ∈ buildResourceSearchList (ResourcePattern.forDatabaseName userName.getDB),
          action ∈ u.getActionsForResource r := by
    unfold AuthorizationSessionImpl.isAuthorizedToChangeAsUser
    cases hl : s.lookupUser userName with
    | none => simp
    | some u => simp [ActionSet.contains, mem_addActionsOfUser]
  have hlook : ∀ u, s.lookupUser userName = some u →
      u ∈ s._authenticatedUsers ∧ u.getName = userName := by
    intro u hu
    simp only [AuthorizationSessionImpl.lookupUser, UserSet.lookup] at hu
    exact ⟨List.mem_of_find?_eq_some hu, by simpa using List.find?_some hu⟩
  refine ⟨hmain, hlook, ?_, ?_⟩
  · intro hnone
    rw [Bool.eq_false_iff, Ne, hmain]
    rintro ⟨u, hu, _⟩
    exact hnone u (hlook u hu).1 (hlook u hu).2
  · intro hinv
    rw [hmain]
    constructor
    · rintro ⟨u, hu, hr⟩
      exact ⟨u, (hlook u hu).1, (hlook u hu).2, hr⟩
    · rintro ⟨u, hu, hn, hr⟩
      refine ⟨u, ?_, hr⟩
      rw [← hn]
      exact lookup_eq_some_of_mem _ hinv u hu

/-- Witness of C24: the user `u` of `test` holds `update` on `Database(test)` and may
change as itself with `update`, not with `remove`; nobody may change as `w`, a name that
is not authenticated, whatever the other user holds. -/
theorem isAuthorizedToChangeAsUser_iff_witness :
    (sessionOf [dbUser "test" {ActionType.update}]).isAuthorizedToChangeAsUser ⟨"u", "test"⟩
      ActionType.update = true ∧
    (sessionOf [dbUser "test" {ActionType.update}]).isAuthorizedToChangeAsUser ⟨"u", "test"⟩
      ActionType.remove = false ∧
    (sessionOf [dbUser "test" {ActionType.update}]).isAuthorizedToChangeAsUser ⟨"w", "test"⟩
      ActionType.update = false :=
  ⟨((isAuthorizedToChangeAsUser_iff (sessionOf [dbUser "test" {ActionType.update}])
      ⟨"u", "test"⟩ ActionType.update).2.2.2 (by decide)).mpr
      ⟨dbUser "test" {ActionType.update}, List.mem_cons_self _ _, rfl,
        ResourcePattern.forDatabaseName "test", by decide, by decide⟩,
    by decide,
    (isAuthorizedToChangeAsUser_iff (sessionOf [dbUser "test" {ActionType.update}])
      ⟨"w", "test"⟩ ActionType.update).2.2.1 (by decide)⟩

/-- C25: `isAuthorizedToParseNamespaceElement` raises `InvalidNamespace` exactly when the
element is neither a string nor a binary value of the UUID subtype; for a string it
returns true in every session state; for a UUID it returns
`isAuthorizedForActionsOnResource(ClusterResource, useUUID)`. -/
theorem isAuthorizedToParseNamespaceElement_cases (s : AuthorizationSessionImpl)
    (element : BSONElement) :
    (s.isAuthorizedToParseNamespaceElement element =
        UassertResult.uasserted ErrorCodes.InvalidNamespace ↔
      element.type ≠ BSONType.String ∧
        ¬ (element.type = BSONType.BinData ∧ element.binDataType = BinDataType.newUUID)) ∧
    (element.type = BSONType.String →
      s.isAuthorizedToParseNamespaceElement element = UassertResult.returned true) ∧
    (element.type = BSONType.BinData → element.binDataType = BinDataType.newUUID →
      s.isAuthorizedToParseNamespaceElement element =
        UassertResult.returned
          (s.isAuthorizedForActionsOnResource ResourcePattern.forClusterResource
            ActionType.useUUID)) := by
  obtain ⟨type, binDataType⟩ := element
  cases type <;> cases binDataType <;>
    simp [AuthorizationSessionImpl.isAuthorizedToParseNamespaceElement]

/-- Witness of C25: on a session without user a string is accepted, a UUID is refused, and
a binary value of another subtype raises. -/
theorem isAuthorizedToParseNamespaceElement_cases_witness :
    (sessionOf []).isAuthorizedToParseNamespaceElement ⟨BSONType.String, BinDataType.Other 0⟩ =
      UassertResult.returned true ∧
    (sessionOf []).isAuthorizedToParseNamespaceElement ⟨BSONType.BinData, BinDataType.newUUID⟩ =
      UassertResult.returned false ∧
    (sessionOf []).isAuthorizedToParseNamespaceElement ⟨BSONType.BinData, BinDataType.Other 0⟩ =
      UassertResult.uasserted ErrorCodes.InvalidNamespace :=
  ⟨(isAuthorizedToParseNamespaceElement_cases (sessionOf [])
      ⟨BSONType.String, BinDataType.Other 0⟩).2.1 rfl,
    ((isAuthorizedToParseNamespaceElement_cases (sessionOf [])
      ⟨BSONType.BinData, BinDataType.newUUID⟩).2.2 rfl rfl).trans (by decide),
    (isAuthorizedToParseNamespaceElement_cases (sessionOf [])
      ⟨BSONType.BinData, BinDataType.Other 0⟩).1.mpr (by decide)⟩

/-! ## Scan order, impersonation and default deny -/

theorem isAuthorizedWith_iff (l : List ResourcePattern) (ds : PrivilegeVector)
    (us : List User) (A : ActionSet) :
    AuthorizationSessionImpl.isAuthorizedWith l ds us A = true ↔
      (∃ g : ActionSet,
        (∃ d ∈ ds, d.getResourcePattern ∈ l ∧ d.getActions = g) ∨
          (∃ u ∈ us, ∃ r ∈ l, u.getActionsForResource r = g)) ∧
      ∀ a ∈ A, ∃ g : ActionSet,
        ((∃ d ∈ ds, d.getResourcePattern ∈ l ∧ d.getActions = g) ∨
          (∃ u ∈ us, ∃ r ∈ l, u.getActionsForResource r = g)) ∧ a ∈ g := by
  have hsteps : ∀ g : ActionSet,
      g ∈ ds.flatMap (fun d => (l.filter (fun r => d.getResourcePattern == r)).map
          (fun _ => d.getActions)) ++
        us.flatMap (fun u => l.map (fun r => u.getActionsForResource r)) ↔
      ((∃ d ∈ ds, d.getResourcePattern ∈ l ∧ d.getActions = g) ∨
        (∃ u ∈ us, ∃ r ∈ l, u.getActionsForResource r = g)) := by
    intro g
    simp only [List.mem_append, List.mem_flatMap, List.mem_map, List.mem_filter, beq_iff_eq]
    constructor
    · rintro (⟨d, hd, r, ⟨hr, hdr⟩, rfl⟩ | ⟨u, hu, r, hr, rfl⟩)
      · exact Or.inl ⟨d, hd, hdr ▸ hr, rfl⟩
      · exact Or.inr ⟨u, hu, r, hr, rfl⟩
    · rintro (⟨d, hd, hr, rfl⟩ | ⟨u, hu, r, hr, rfl⟩)
      · exact Or.inl ⟨d, hd, d.getResourcePattern, ⟨hr, rfl⟩, rfl⟩
      · exact Or.inr ⟨u, hu, r, hr, rfl⟩
  have heq : AuthorizationSessionImpl.isAuthorizedWith l ds us A =
      (removeEach (ds.flatMap (fun d => (l.filter (fun r => d.getResourcePattern == r)).map
          (fun _ => d.getActions)) ++
        us.flatMap (fun u => l.map (fun r => u.getActionsForResource r))) A).isNone := by
    simp only [AuthorizationSessionImpl.isAuthorizedWith, removeEach_append,
      scanDefaultPrivileges_eq, scanUsers_eq]
    cases removeEach _ A with
    | none => rfl
    | some y =>
      simp only [Option.some_bind]
      cases removeEach _ y <;> rfl
  rw [heq, Option.isNone_iff_eq_none, removeEach_eq_none_iff]
  constructor
  · rintro ⟨hne, hall⟩
    obtain ⟨g, hg⟩ := List.exists_mem_of_ne_nil _ hne
    refine ⟨⟨g, (hsteps g).mp hg⟩, fun a ha => ?_⟩
    obtain ⟨g2, hg2, hag2⟩ := hall a ha
    exact ⟨g2, (hsteps g2).mp hg2, hag2⟩
  · rintro ⟨⟨g, hg⟩, hall⟩
    refine ⟨List.ne_nil_of_mem ((hsteps g).mpr hg), fun a ha => ?_⟩
    obtain ⟨g2, hg2, hag2⟩ := hall a ha
    exact ⟨g2, (hsteps g2).mpr hg2, hag2⟩

theorem isAuthorizedWith_perm (l l2 : List ResourcePattern) (ds ds2 : PrivilegeVector)
    (us us2 : List User) (A : ActionSet) (hl : l.Perm l2) (hd : ds.Perm ds2)
    (hu : us.Perm us2) :
    AuthorizationSessionImpl.isAuthorizedWith l ds us A =
      AuthorizationSessionImpl.isAuthorizedWith l2 ds2 us2 A := by
  rw [Bool.eq_iff_iff, isAuthorizedWith_iff, isAuthorizedWith_iff]
  simp only [hl.mem_iff, hd.mem_iff, hu.mem_iff]

/-- C26: the decision does not depend on the scan order. `_isAuthorizedForPrivilege` is
`isAuthorizedWith` on the search list, the default privileges and the users of the
session; `isAuthorizedWith` gives the same result on permutations of the search list, of
the default privileges and of the users; and two sessions with the same external state
whose identity sets are permutations of each other decide alike. -/
theorem isAuthorizedForPrivilege_scan_order :
    (∀ (s : AuthorizationSessionImpl) (p : Privilege),
      s._isAuthorizedForPrivilege p =
        AuthorizationSessionImpl.isAuthorizedWith (buildResourceSearchList p.getResourcePattern)
          s.getDefaultPrivileges s._authenticatedUsers p.getActions) ∧
    (∀ (l l2 : List ResourcePattern) (ds ds2 : PrivilegeVector) (us us2 : List User)
        (A : ActionSet), l.Perm l2 → ds.Perm ds2 → us.Perm us2 →
      AuthorizationSessionImpl.isAuthorizedWith l ds us A =
        AuthorizationSessionImpl.isAuthorizedWith l2 ds2 us2 A) ∧
    (∀ (s t : AuthorizationSessionImpl) (p : Privilege),
      t._externalState = s._externalState →
      s._authenticatedUsers.Perm t._authenticatedUsers →
      s.isAuthorizedForPrivilege p = t.isAuthorizedForPrivilege p) := by
  refine ⟨fun _ _ => rfl, ?_, ?_⟩
  · intro l l2 ds ds2 us us2 A hl hd hu
    exact isAuthorizedWith_perm l l2 ds ds2 us us2 A hl hd hu
  · intro s t p hext hu
    have h1 : s._isAuthorizedForPrivilege p = t._isAuthorizedForPrivilege p := by
      show AuthorizationSessionImpl.isAuthorizedWith _ _ _ _ =
        AuthorizationSessionImpl.isAuthorizedWith _ _ _ _
      rw [getDefaultPrivileges_congr s t hext]
      exact isAuthorizedWith_perm _ _ _ _ _ _ _ (List.Perm.refl _) (List.Perm.refl _) hu
    simp only [AuthorizationSessionImpl.isAuthorizedForPrivilege, hext, h1]

/-- Witness of C26: the user of `test` holds `find`, the user of `other` holds `insert` on
all resources; `find` and `insert` on `test.foo` are authorized in either order of the
two users, and with the search list reversed. -/
theorem isAuthorizedForPrivilege_scan_order_witness :
    (sessionOf [dbUser "test" {ActionType.find},
        { dbUser "other" ∅ with
          getPrivileges := [(ResourcePattern.forAnyResource, {ActionType.insert})] }]
      ).isAuthorizedForPrivilege
        ⟨ResourcePattern.forExactNamespace ⟨"test", "foo"⟩,
          {ActionType.find, ActionType.insert}⟩ =
      (sessionOf [{ dbUser "other" ∅ with
          getPrivileges := [(ResourcePattern.forAnyResource, {ActionType.insert})] },
        dbUser "test" {ActionType.find}]).isAuthorizedForPrivilege
        ⟨ResourcePattern.forExactNamespace ⟨"test", "foo"⟩,
          {ActionType.find, ActionType.insert}⟩ ∧
    AuthorizationSessionImpl.isAuthorizedWith
        (buildResourceSearchList (ResourcePattern.forExactNamespace ⟨"test", "foo"⟩)) []
        [dbUser "test" {ActionType.find}] {ActionType.find} =
      AuthorizationSessionImpl.isAuthorizedWith
        (buildResourceSearchList (ResourcePattern.forExactNamespace ⟨"test", "foo"⟩)).reverse []
        [dbUser "test" {ActionType.find}] {ActionType.find} :=
  ⟨isAuthorizedForPrivilege_scan_order.2.2 _ _ _ rfl (List.Perm.swap _ _ _),
    isAuthorizedForPrivilege_scan_order.2.1 _ _ _ _ _ _ _ (List.reverse_perm _).symm
      (List.Perm.refl _) (List.Perm.refl _)⟩

theorem isAuthorizedForPrivilege_congr (s t : AuthorizationSessionImpl)
    (hext : t._externalState = s._externalState)
    (husers : t._authenticatedUsers = s._authenticatedUsers) (p : Privilege) :
    t._isAuthorizedForPrivilege p = s._isAuthorizedForPrivilege p := by
  simp only [AuthorizationSessionImpl._isAuthorizedForPrivilege,
    getDefaultPrivileges_congr s t hext, husers]

/-- C27: the impersonation data grants nothing. Two sessions with the same external state
and the same identity set, whatever their impersonated user names, role names and flag,
give the same result for `isAuthorizedForPrivilege`, `isAuthorizedForPrivileges`,
`isAuthorizedForAnyActionOnResource` and `isAuthorizedToChangeAsUser`, on every
argument. -/
theorem impersonation_grants_nothing (s t : AuthorizationSessionImpl)
    (hext : t._externalState = s._externalState)
    (husers : t._authenticatedUsers = s._authenticatedUsers) :
    (∀ p : Privilege, t.isAuthorizedForPrivilege p = s.isAuthorizedForPrivilege p) ∧
    (∀ ps : List Privilege, t.isAuthorizedForPrivileges ps = s.isAuthorizedForPrivileges ps) ∧
    (∀ r : ResourcePattern,
      t.isAuthorizedForAnyActionOnResource r = s.isAuthorizedForAnyActionOnResource r) ∧
    (∀ (userName : UserName) (action : ActionType),
      t.isAuthorizedToChangeAsUser userName action =
        s.isAuthorizedToChangeAsUser userName action) := by
  refine ⟨?_, ?_, ?_, ?_⟩
  · intro p
    simp only [AuthorizationSessionImpl.isAuthorizedForPrivilege, hext,
      isAuthorizedForPrivilege_congr s t hext husers]
  · intro ps
    have hall : AuthorizationSessionImpl.allAuthorized t ps =
        AuthorizationSessionImpl.allAuthorized s ps := by
      rw [Bool.eq_iff_iff, allAuthorized_iff, allAuthorized_iff]
      simp only [isAuthorizedForPrivilege_congr s t hext husers]
    simp only [AuthorizationSessionImpl.isAuthorizedForPrivileges, hext, hall]
  · intro r
    simp only [AuthorizationSessionImpl.isAuthorizedForAnyActionOnResource, hext, husers]
  · intro userName action
    simp only [AuthorizationSessionImpl.isAuthorizedToChangeAsUser,
      AuthorizationSessionImpl.lookupUser, husers]

/-- Witness of C27: impersonating `root` of `admin` with the role `root` does not authorize
`shutdown` on the cluster, and leaves `find` on `test.foo` authorized. -/
theorem impersonation_grants_nothing_witness :
    ((sessionOf [dbUser "test" {ActionType.find}]).setImpersonatedUserData [⟨"root", "admin"⟩]
      [⟨"root", "admin"⟩]).isAuthorizedForPrivilege
        (Privilege.ofAction ResourcePattern.forClusterResource ActionType.shutdown) = false ∧
    ((sessionOf [dbUser "test" {ActionType.find}]).setImpersonatedUserData [⟨"root", "admin"⟩]
      [⟨"root", "admin"⟩]).isAuthorizedForPrivilege
        (Privilege.ofAction (ResourcePattern.forExactNamespace ⟨"test", "foo"⟩)
          ActionType.find) = true :=
  ⟨((impersonation_grants_nothing (sessionOf [dbUser "test" {ActionType.find}])
      ((sessionOf [dbUser "test" {ActionType.find}]).setImpersonatedUserData
        [⟨"root", "admin"⟩] [⟨"root", "admin"⟩]) rfl rfl).1 _).trans (by decide),
    ((impersonation_grants_nothing (sessionOf [dbUser "test" {ActionType.find}])
      ((sessionOf [dbUser "test" {ActionType.find}]).setImpersonatedUserData
        [⟨"root", "admin"⟩] [⟨"root", "admin"⟩]) rfl rfl).1 _).trans (by decide)⟩

/-- C28, as stated, fails: the user of `test` holds `find` on `Database(test)`, and `find`
on `test.foo` is authorized; `addAndAuthorizeUser` of `p` of `test` returns OK and
replaces that user by `p`, who holds nothing, and `find` on `test.foo` is not authorized
any more. -/
theorem addAndAuthorizeUser_replaces_and_denies :
    (sessionOf [dbUser "test" {ActionType.find}]).isAuthorizedForPrivilege
      (Privilege.ofAction (ResourcePattern.forExactNamespace ⟨"test", "foo"⟩)
        ActionType.find) = true ∧
    (AuthorizationSessionImpl.addAndAuthorizeUser fixedDirectory ()
      (sessionOf [dbUser "test" {ActionType.find}]) ⟨"p", "test"⟩).1 =
        Outcome.returned Status.OK ∧
    (AuthorizationSessionImpl.addAndAuthorizeUser fixedDirectory ()
      (sessionOf [dbUser "test" {ActionType.find}]) ⟨"p", "test"⟩).2.1._externalState =
        (sessionOf [dbUser "test" {ActionType.find}])._externalState ∧
    (AuthorizationSessionImpl.addAndAuthorizeUser fixedDirectory ()
      (sessionOf [dbUser "test" {ActionType.find}]) ⟨"p", "test"⟩).2.1.isAuthorizedForPrivilege
      (Privilege.ofAction (ResourcePattern.forExactNamespace ⟨"test", "foo"⟩)
        ActionType.find) = false := by
  decide

/-- C28, amended: an `addAndAuthorizeUser` that returns OK and acquires `u` keeps every
true decision of `isAuthorizedForPrivilege` true, provided that every identity of the
database of `u` that was authenticated before (the one that `u` replaces) is granted, on
every resource pattern, only actions that `u` is granted too; in particular when no
identity of that database was authenticated before. -/
theorem addAndAuthorizeUser_mono {σ : Type} (authMan : AuthorizationManager σ) (dir : σ)
    (s : AuthorizationSessionImpl) (userName : UserName) (u : User) (p : Privilege)
    (hacq : (authMan.acquireUser dir userName).1 = StatusWith.value u)
    (hok : (AuthorizationSessionImpl.addAndAuthorizeUser authMan dir s userName).1 =
      Outcome.returned Status.OK)
    (hsup : ∀ v ∈ s._authenticatedUsers, v.getName.getDB = u.getName.getDB →
      ∀ r : ResourcePattern, v.getActionsForResource r ⊆ u.getActionsForResource r)
    (h : s.isAuthorizedForPrivilege p = true) :
    (AuthorizationSessionImpl.addAndAuthorizeUser authMan dir s
      userName).2.1.isAuthorizedForPrivilege p = true := by
  rw [addAndAuthorizeUser_users_of_ok authMan dir s userName u hacq hok]
  cases hi : s._externalState.shouldIgnoreAuthChecks with
  | true =>
    simp [AuthorizationSessionImpl.isAuthorizedForPrivilege,
      AuthorizationSessionImpl._buildAuthenticatedRolesVector,
      AuthorizationSessionImpl.clearImpersonatedUserData, hi]
  | false =>
    have hdef : (AuthorizationSessionImpl.clearImpersonatedUserData
        { s with _authenticatedUsers := UserSet.add s._authenticatedUsers u }
        )._buildAuthenticatedRolesVector.getDefaultPrivileges = s.getDefaultPrivileges :=
      getDefaultPrivileges_congr s _ rfl
    simp only [AuthorizationSessionImpl.isAuthorizedForPrivilege, hi, Bool.false_eq_true,
      if_false, isAuthorizedForPrivilege_core] at h
    simp only [AuthorizationSessionImpl.isAuthorizedForPrivilege,
      AuthorizationSessionImpl._buildAuthenticatedRolesVector,
      AuthorizationSessionImpl.clearImpersonatedUserData, hi, Bool.false_eq_true, if_false,
      isAuthorizedForPrivilege_core]
    obtain ⟨_, hsub⟩ := h
    refine ⟨Or.inl (List.ne_nil_of_mem (mem_add_self _ u)), ?_⟩
    intro a ha
    have hmem := hsub ha
    rw [mem_grantedActions] at hmem ⊢
    rcases hmem with hd | ⟨v, hv, r, hr, har⟩
    · left
      simpa [AuthorizationSessionImpl._buildAuthenticatedRolesVector,
        AuthorizationSessionImpl.clearImpersonatedUserData] using hdef ▸ hd
    · right
      by_cases hdb : v.getName.getDB = u.getName.getDB
      · exact ⟨u, mem_add_self _ u, r, hr, hsup v hv hdb r har⟩
      · exact ⟨v, mem_add_of_mem _ u v hv hdb, r, hr, har⟩

/-- Witness of C28, amended: the user of `other` holds `find` on `Database(other)`; after
`p` of `test` is authenticated, no user of `test` being there before, `find` on
`other.foo` is still authorized. -/
theorem addAndAuthorizeUser_mono_witness :
    (AuthorizationSessionImpl.addAndAuthorizeUser fixedDirectory ()
      (sessionOf [dbUser "other" {ActionType.find}]) ⟨"p", "test"⟩).2.1.isAuthorizedForPrivilege
      (Privilege.ofAction (ResourcePattern.forExactNamespace ⟨"other", "foo"⟩)
        ActionType.find) = true :=
  addAndAuthorizeUser_mono fixedDirectory () (sessionOf [dbUser "other" {ActionType.find}])
    ⟨"p", "test"⟩
    { dbUser "test" ∅ with getName := ⟨"p", "test"⟩, getIndirectRoles := [⟨"r", "test"⟩] }
    (Privilege.ofAction (ResourcePattern.forExactNamespace ⟨"other", "foo"⟩) ActionType.find)
    rfl (by decide)
    (fun v hv hdb => by
      obtain rfl := List.mem_singleton.mp hv
      exact absurd hdb (by decide))
    (by decide)

theorem someEntryHasActions_nil (l : List ResourcePattern) :
    AuthorizationSessionImpl.someEntryHasActions [] l = false := by
  induction l with
  | nil => rfl
  | cons r rest ih =>
    simp [AuthorizationSessionImpl.someEntryHasActions,
      AuthorizationSessionImpl.someUserHasActions, ih]

/-- C29: default deny. With authorization checks not ignored, no user authenticated and
the localhost exception inactive, `isAuthorizedForPrivilege` is false for every
privilege, the one with the empty action set included, and
`isAuthorizedForAnyActionOnResource` is false for every resource pattern. -/
theorem default_deny (s : AuthorizationSessionImpl)
    (hi : s._externalState.shouldIgnoreAuthChecks = false)
    (hl : s._externalState.shouldAllowLocalhost = false)
    (hu : s._authenticatedUsers = []) :
    (∀ p : Privilege, s.isAuthorizedForPrivilege p = false) ∧
    (∀ r : ResourcePattern, s.isAuthorizedForAnyActionOnResource r = false) := by
  refine ⟨?_, ?_⟩
  · intro p
    rw [Bool.eq_false_iff, Ne]
    simp only [AuthorizationSessionImpl.isAuthorizedForPrivilege, hi, Bool.false_eq_true,
      if_false, isAuthorizedForPrivilege_core, getDefaultPrivileges_eq_nil s hl, hu]
    simp
  · intro r
    simp [AuthorizationSessionImpl.isAuthorizedForAnyActionOnResource, hi, hu,
      someEntryHasActions_nil]

/-- Witness of C29: a fresh session denies the privilege with the empty action set on
`AnyResource`, `find` on `test.foo`, and any action on the cluster. -/
theorem default_deny_witness :
    (AuthorizationSessionImpl.create plainState).isAuthorizedForPrivilege
      ⟨ResourcePattern.forAnyResource, ∅⟩ = false ∧
    (AuthorizationSessionImpl.create plainState).isAuthorizedForPrivilege
      (Privilege.ofAction (ResourcePattern.forExactNamespace ⟨"test", "foo"⟩)
        ActionType.find) = false ∧
    (AuthorizationSessionImpl.create plainState).isAuthorizedForAnyActionOnResource
      ResourcePattern.forClusterResource = false :=
  ⟨(default_deny (AuthorizationSessionImpl.create plainState) rfl rfl rfl).1 _,
    (default_deny (AuthorizationSessionImpl.create plainState) rfl rfl rfl).1 _,
    (default_deny (AuthorizationSessionImpl.create plainState) rfl rfl rfl).2 _⟩

/-! ## Listing collections -/

theorem isAuthorizedForPrivileges_singleton (s : AuthorizationSessionImpl) (p : Privilege) :
    s.isAuthorizedForPrivileges [p] = s.isAuthorizedForPrivilege p := by
  cases h : s._isAuthorizedForPrivilege p <;>
    simp [AuthorizationSessionImpl.isAuthorizedForPrivileges,
      AuthorizationSessionImpl.isAuthorizedForPrivilege,
      AuthorizationSessionImpl.allAuthorized, h]

/-- C30: `checkAuthorizedToListCollections(db, cmd)` returns OK with the empty privilege
vector when `authorizedCollections` and `nameOnly` are both true and
`isAuthorizedForAnyActionOnAnyResourceInDB(db)` is true; otherwise it returns OK with the
one privilege `(Database(db), listCollections)` when that privilege is authorized, and
`Unauthorized` when it is not. So it fails exactly when that privilege is not authorized
and the first case does not apply. -/
theorem checkAuthorizedToListCollections_cases (s : AuthorizationSessionImpl) (db : String)
    (authorizedCollections nameOnly : Bool) :
    (authorizedCollections = true ∧ nameOnly = true ∧
        s.isAuthorizedForAnyActionOnAnyResourceInDB db = true →
      s.checkAuthorizedToListCollections db authorizedCollections nameOnly =
        StatusWith.value []) ∧
    (¬ (authorizedCollections = true ∧ nameOnly = true ∧
        s.isAuthorizedForAnyActionOnAnyResourceInDB db = true) →
      s.isAuthorizedForPrivilege
        (Privilege.ofAction (ResourcePattern.forDatabaseName db) ActionType.listCollections) =
          true →
      s.checkAuthorizedToListCollections db authorizedCollections nameOnly =
        StatusWith.value
          [Privilege.ofAction (ResourcePattern.forDatabaseName db) ActionType.listCollections]) ∧
    (¬ (authorizedCollections = true ∧ nameOnly = true ∧
        s.isAuthorizedForAnyActionOnAnyResourceInDB db = true) →
      s.isAuthorizedForPrivilege
        (Privilege.ofAction (ResourcePattern.forDatabaseName db) ActionType.listCollections) =
          false →
      s.checkAuthorizedToListCollections db authorizedCollections nameOnly =
        StatusWith.error ErrorCodes.Unauthorized) ∧
    ((∃ code, s.checkAuthorizedToListCollections db authorizedCollections nameOnly =
        StatusWith.error code) ↔
      (s.isAuthorizedForPrivilege
        (Privilege.ofAction (ResourcePattern.forDatabaseName db) ActionType.listCollections) =
          false ∧
        ¬ (authorizedCollections = true ∧ nameOnly = true ∧
          s.isAuthorizedForAnyActionOnAnyResourceInDB db = true))) := by
  simp only [AuthorizationSessionImpl.checkAuthorizedToListCollections,
    isAuthorizedForPrivileges_singleton]
  cases authorizedCollections <;> cases nameOnly <;>
    cases h1 : s.isAuthorizedForAnyActionOnAnyResourceInDB db <;>
    cases h2 : s.isAuthorizedForPrivilege
      (Privilege.ofAction (ResourcePattern.forDatabaseName db) ActionType.listCollections) <;>
    simp

/-- Witness of C30: a user whose only grant is `find` on `Collection(foo)` gets the empty
privilege vector on `test` when both flags are set, and `Unauthorized` when `nameOnly` is
not set; a user holding `listCollections` on `Database(test)` gets that privilege. -/
theorem checkAuthorizedToListCollections_cases_witness :
    (sessionOf [{ dbUser "test" ∅ with
        getPrivileges := [(ResourcePattern.forCollectionName "foo", {ActionType.find})] }]
      ).checkAuthorizedToListCollections "test" true true = StatusWith.value [] ∧
    (sessionOf [{ dbUser "test" ∅ with
        getPrivileges := [(ResourcePattern.forCollectionName "foo", {ActionType.find})] }]
      ).checkAuthorizedToListCollections "test" true false =
        StatusWith.error ErrorCodes.Unauthorized ∧
    (sessionOf [dbUser "test" {ActionType.listCollections}]).checkAuthorizedToListCollections
      "test" false false =
        StatusWith.value
          [Privilege.ofAction (ResourcePattern.forDatabaseName "test")
            ActionType.listCollections] :=
  ⟨(checkAuthorizedToListCollections_cases _ "test" true true).1 (by decide),
    (checkAuthorizedToListCollections_cases _ "test" true false).2.2.1 (by decide) (by decide),
    (checkAuthorizedToListCollections_cases _ "test" false false).2.1 (by decide) (by decide)⟩

end mongo
